import Mathlib

/-!
Verification of the admin-bot forward proxy's cache layer, cache cleaner and
configuration handling, as a shallow embedding of the Go sources:

* `pkg/forwardproxy/cache.go`  — cache key generation, cache handler
* `pkg/cachecleaner/cleaner.go` — periodic cache sweep
* `pkg/config/helpers.go`       — duration parsing, cleaner interval
* `cmd/main.go`                 — configuration diffing (compareConfigs)

Machine integers are modelled as `Nat`/`Int` with explicit reductions
modulo 2^32 or bounds checks against 2^63 where the Go code uses
`uint32`/`uint64`/`time.Duration`.  Durations and file modification times
are nanosecond counts (`Int`), matching `time.Duration` and `time.Time`
arithmetic as used by the code.
-/

namespace AdminBot

/-! ## Bytes and ASCII case mapping -/

/-- UTF-8 encoding of a single scalar value, as a list of byte values
(model of Go's string/[]byte conversion). -/
def utf8Char (n : Nat) : List Nat :=
  if n < 0x80 then [n]
  else if n < 0x800 then [0xC0 ||| (n >>> 6), 0x80 ||| (n &&& 0x3F)]
  else if n < 0x10000 then
    [0xE0 ||| (n >>> 12), 0x80 ||| ((n >>> 6) &&& 0x3F), 0x80 ||| (n &&& 0x3F)]
  else
    [0xF0 ||| (n >>> 18), 0x80 ||| ((n >>> 12) &&& 0x3F),
     0x80 ||| ((n >>> 6) &&& 0x3F), 0x80 ||| (n &&& 0x3F)]

/-- UTF-8 bytes of a string (Go strings are UTF-8 byte sequences). -/
def utf8Bytes (s : String) : List Nat :=
  (s.data.map (fun c => utf8Char c.toNat)).flatten

/-- ASCII lower-casing of one character.  Models `strings.ToLower` for the
ASCII inputs (methods, schemes, hosts) the proxy deals in; the full Unicode
case tables are out of scope. -/
def asciiLowerChar (c : Char) : Char :=
  if 65 ≤ c.toNat ∧ c.toNat ≤ 90 then Char.ofNat (c.toNat + 32) else c

/-- ASCII upper-casing of one character (model of `strings.ToUpper`). -/
def asciiUpperChar (c : Char) : Char :=
  if 97 ≤ c.toNat ∧ c.toNat ≤ 122 then Char.ofNat (c.toNat - 32) else c

/-- Model of `strings.ToLower` (ASCII range). -/
def goToLower (s : String) : String := String.mk (s.data.map asciiLowerChar)

/-- Model of `strings.ToUpper` (ASCII range). -/
def goToUpper (s : String) : String := String.mk (s.data.map asciiUpperChar)

/-! ## SHA-256 (model of Go's `crypto/sha256`)

Words are `Nat` values kept below 2^32 by explicit reduction. -/

/-- Truncation to a 32-bit word. -/
def w32 (n : Nat) : Nat := n % 4294967296

/-- Right rotation of a 32-bit word. -/
def rotr (k n : Nat) : Nat := w32 ((n >>> k) ||| (n <<< (32 - k)))

def bigSigma0 (x : Nat) : Nat := (rotr 2 x) ^^^ (rotr 13 x) ^^^ (rotr 22 x)

def bigSigma1 (x : Nat) : Nat := (rotr 6 x) ^^^ (rotr 11 x) ^^^ (rotr 25 x)

def smallSigma0 (x : Nat) : Nat := (rotr 7 x) ^^^ (rotr 18 x) ^^^ (x >>> 3)

def smallSigma1 (x : Nat) : Nat := (rotr 17 x) ^^^ (rotr 19 x) ^^^ (x >>> 10)

def shaCh (x y z : Nat) : Nat := (x &&& y) ^^^ ((w32 (4294967295 - x)) &&& z)

def shaMaj (x y z : Nat) : Nat := (x &&& y) ^^^ (x &&& z) ^^^ (y &&& z)

/-- The round constants of FIPS 180-4, written in decimal. -/
def shaK : List Nat :=
  [116352408, 1899447441, 3049323471, 3921009573, 961987163,
   1508970993, 2453635748, 2870763221, 3624381080, 310598401,
   607225278, 1426881987, 1925078388, 2162078206, 2614888103,
   3248222580, 3835390401, 4022224774, 264347078, 604807628,
   770255983, 1249150122, 1555081692, 1996064986, 2554220882,
   2821834349, 2952996808, 3210313671, 3336571891, 3584528711,
   113926993, 338241895, 666307205, 773529912, 1294757372,
   1396182291, 1695183700, 1986661051, 2177026350, 2456956037,
   2730485921, 2820302411, 3259730800, 3345764771, 3516065817,
   3600352804, 4094571909, 275423344, 430227734, 506948616,
   659060556, 883997877, 958139571, 1322822218, 1537002063,
   1747873779, 1955562222, 2024104815, 2227730452, 2361852424,
   2428436474, 2756734187, 3204031479, 3329325298]

/-- The initial hash state of FIPS 180-4, written in decimal. -/
def shaH0 : List Nat :=
  [779033703, 3144134277, 1013904242, 2773480762,
   1359893119, 2600822924, 528734635, 1541459225]

/-- Big-endian byte serialisation of a value into `k` bytes. -/
def toBytesBE (k n : Nat) : List Nat :=
  (List.range k).map (fun i => (n >>> (8 * (k - 1 - i))) % 256)

/-- SHA-256 message padding: append 0x80, zero bytes to 56 mod 64, and the
64-bit big-endian bit length. -/
def shaPad (msg : List Nat) : List Nat :=
  let l := msg.length
  let zeros := (64 - ((l + 9) % 64)) % 64
  msg ++ [0x80] ++ List.replicate zeros 0 ++ toBytesBE 8 (l * 8)

/-- Group bytes into big-endian 32-bit words. -/
def bytesToWords : List Nat → List Nat
  | a :: b :: c :: d :: rest =>
      (a <<< 24 ||| b <<< 16 ||| c <<< 8 ||| d) :: bytesToWords rest
  | _ => []

/-- Split a word list into 16-word blocks (padded input is always a
multiple of 16 words; a shorter tail cannot occur and is dropped). -/
def toBlocks : List Nat → List (List Nat)
  | w0 :: w1 :: w2 :: w3 :: w4 :: w5 :: w6 :: w7 ::
    w8 :: w9 :: w10 :: w11 :: w12 :: w13 :: w14 :: w15 :: rest =>
      [w0, w1, w2, w3, w4, w5, w6, w7, w8, w9, w10, w11, w12, w13, w14, w15] ::
        toBlocks rest
  | _ => []

/-- Extend a 16-word block to the 64-word message schedule. -/
def shaSchedule (ws : Array Nat) : Array Nat :=
  (List.range 48).foldl
    (fun a i =>
      a.push (w32 (smallSigma1 a[i + 14]! + a[i + 9]! + smallSigma0 a[i + 1]! + a[i]!)))
    ws

/-- One SHA-256 round. -/
def shaRound (st : Nat × Nat × Nat × Nat × Nat × Nat × Nat × Nat) (kw : Nat × Nat) :
    Nat × Nat × Nat × Nat × Nat × Nat × Nat × Nat :=
  let (a, b, c, d, e, f, g, h) := st
  let t1 := w32 (h + bigSigma1 e + shaCh e f g + kw.1 + kw.2)
  let t2 := w32 (bigSigma0 a + shaMaj a b c)
  (w32 (t1 + t2), a, b, c, w32 (d + t1), e, f, g)

/-- Compress one block into the running state. -/
def shaCompress (h : List Nat) (block : List Nat) : List Nat :=
  let ws := (shaSchedule (block.toArray)).toList
  match h with
  | [h0, h1, h2, h3, h4, h5, h6, h7] =>
    let (a, b, c, d, e, f, g, hh) :=
      (shaK.zip ws).foldl shaRound (h0, h1, h2, h3, h4, h5, h6, h7)
    [w32 (h0 + a), w32 (h1 + b), w32 (h2 + c), w32 (h3 + d),
     w32 (h4 + e), w32 (h5 + f), w32 (h6 + g), w32 (h7 + hh)]
  | _ => h

/-- SHA-256 digest of a byte list, as 32 bytes. -/
def sha256Bytes (msg : List Nat) : List Nat :=
  let final := (toBlocks (bytesToWords (shaPad msg))).foldl shaCompress shaH0
  (final.map (toBytesBE 4)).flatten

/-! ## Base64 URL encoding (model of Go's `encoding/base64.URLEncoding`) -/

/-- The URL-safe base64 alphabet. -/
def b64Alphabet : List Char :=
  "ABCDEFGHIJKLMNOPQRSTUVWXYZabcdefghijklmnopqrstuvwxyz0123456789-_".data

def b64Char (n : Nat) : Char := b64Alphabet.getD n 'A'

/-- Base64 URL encoding with padding, as produced by
`base64.URLEncoding.EncodeToString`. -/
def base64urlEncode : List Nat → List Char
  | b0 :: b1 :: b2 :: rest =>
      let n := b0 <<< 16 ||| b1 <<< 8 ||| b2
      b64Char (n >>> 18) :: b64Char ((n >>> 12) &&& 63) ::
        b64Char ((n >>> 6) &&& 63) :: b64Char (n &&& 63) :: base64urlEncode rest
  | [b0, b1] =>
      let n := b0 <<< 16 ||| b1 <<< 8
      [b64Char (n >>> 18), b64Char ((n >>> 12) &&& 63), b64Char ((n >>> 6) &&& 63), '=']
  | [b0] =>
      let n := b0 <<< 16
      [b64Char (n >>> 18), b64Char ((n >>> 12) &&& 63), '=', '=']
  | [] => []

/-! ## Query encoding and cache keys (model of `generateCacheKey` in
`pkg/forwardproxy/cache.go` and of `net/url.Values.Encode`) -/

def hexDigitUpper (n : Nat) : Char := "0123456789ABCDEF".data.getD n '0'

/-- Escaping of one byte as done by `url.QueryEscape`: ASCII alphanumerics
and `-_.~` are kept, space becomes `+`, everything else becomes `%XX`. -/
def escapeByte (b : Nat) : List Char :=
  if (48 ≤ b ∧ b ≤ 57) ∨ (65 ≤ b ∧ b ≤ 90) ∨ (97 ≤ b ∧ b ≤ 122) ∨
      b = 45 ∨ b = 95 ∨ b = 46 ∨ b = 126 then [Char.ofNat b]
  else if b = 32 then ['+']
  else ['%', hexDigitUpper (b >>> 4), hexDigitUpper (b &&& 15)]

/-- Model of `url.QueryEscape` (operates on the UTF-8 bytes). -/
def queryEscape (s : String) : String :=
  String.mk (((utf8Bytes s).map escapeByte).flatten)

/-- A parsed URL as far as the cache key is concerned.  `query` is the list
of key/value pairs of the query string in order of appearance, i.e. what
`u.Query()` parses out of `u.RawQuery`. -/
structure URL where
  scheme : String
  host : String
  path : String
  query : List (String × String)
deriving DecidableEq, Repr

/-- The values recorded under key `k` in a `url.Values` map built from the
pair list: all values for `k`, in order of appearance. -/
def valuesOf (q : List (String × String)) (k : String) : List String :=
  (q.filter (fun p => p.1 == k)).map Prod.snd

/-- Model of `url.Values.Encode`: keys sorted (Go `sort.Strings`; byte-wise
order on UTF-8 equals the code-point order used here), each key's values in
order of appearance, all escaped with `QueryEscape`, joined with `&` and
`=`. -/
def urlValuesEncode (q : List (String × String)) : String :=
  let keys := List.insertionSort (· ≤ ·) (q.map Prod.fst).dedup
  String.intercalate "&"
    ((keys.map (fun k => (valuesOf q k).map
      (fun v => queryEscape k ++ "=" ++ queryEscape v))).flatten)

/-- The normalized pre-hash key material of `generateCacheKey`:
`fmt.Sprintf("%s:%s://%s%s?%s", upper(method), lower(scheme), lower(host),
path, sortedQuery)`. -/
def cacheKeyData (method : String) (u : URL) : String :=
  goToUpper method ++ ":" ++ goToLower u.scheme ++ "://" ++ goToLower u.host ++
    u.path ++ "?" ++ urlValuesEncode u.query

/-- Model of `generateCacheKey`: base64url(SHA-256(key data)) + ".cache". -/
def generateCacheKey (method : String) (u : URL) : String :=
  String.mk (base64urlEncode (sha256Bytes (utf8Bytes (cacheKeyData method u)))) ++ ".cache"

/-! ## Decimal digits (model of `strconv.Itoa` for non-negative values) -/

def digitChar (n : Nat) : Char := Char.ofNat (48 + n)

/-- Fuel-driven digit accumulation; `fuel = n + 1` always suffices. -/
def natToDigitsAux : Nat → Nat → List Char → List Char
  | 0, _, acc => acc
  | fuel + 1, n, acc =>
      if n < 10 then digitChar n :: acc
      else natToDigitsAux fuel (n / 10) (digitChar (n % 10) :: acc)

/-- Decimal digits of `n`, most significant first. -/
def natToDigitsList (n : Nat) : List Char := natToDigitsAux (n + 1) n []

/-- Model of `strconv.Itoa` on non-negative input. -/
def natRepr (n : Nat) : String := String.mk (natToDigitsList n)

/-! ## HTTP time formatting (model of
`t.UTC().Format(http.TimeFormat)`, layout `Mon, 02 Jan 2006 15:04:05 GMT`) -/

def pad2 (n : Nat) : String :=
  if n < 10 then String.mk ['0', digitChar n] else natRepr n

def pad4 (n : Nat) : String :=
  String.mk (List.replicate (4 - (natToDigitsList n).length) '0' ++ natToDigitsList n)

/-- Civil date (year, month 1..12, day 1..31) from days since 1970-01-01,
proleptic Gregorian calendar. -/
def civilFromDays (z0 : Int) : Int × Nat × Nat :=
  let z := z0 + 719468
  let era := Int.fdiv z 146097
  let doe := (z - era * 146097).toNat
  let yoe := (doe - doe / 1460 + doe / 36524 - doe / 146096) / 365
  let y := (yoe : Int) + era * 400
  let doy := doe - (365 * yoe + yoe / 4 - yoe / 100)
  let mp := (5 * doy + 2) / 153
  let d := doy - (153 * mp + 2) / 5 + 1
  let m := if mp < 10 then mp + 3 else mp - 9
  (if m ≤ 2 then y + 1 else y, m, d)

def weekdayName (i : Nat) : String :=
  ["Sun", "Mon", "Tue", "Wed", "Thu", "Fri", "Sat"].getD i ""

def monthName (m : Nat) : String :=
  ["Jan", "Feb", "Mar", "Apr", "May", "Jun",
   "Jul", "Aug", "Sep", "Oct", "Nov", "Dec"].getD (m - 1) ""

/-- RFC 1123 GMT rendering of a UTC timestamp given in nanoseconds since
the Unix epoch. -/
def httpTimeFormat (ns : Int) : String :=
  let sec := Int.fdiv ns 1000000000
  let days := Int.fdiv sec 86400
  let sod := (sec - days * 86400).toNat
  let wd := (Int.fmod (days + 4) 7).toNat
  let ymd := civilFromDays days
  weekdayName wd ++ ", " ++ pad2 ymd.2.2 ++ " " ++ monthName ymd.2.1 ++ " " ++
    pad4 ymd.1.toNat ++ " " ++ pad2 (sod / 3600) ++ ":" ++
    pad2 (sod % 3600 / 60) ++ ":" ++ pad2 (sod % 60) ++ " GMT"

/-! ## Path extension and MIME lookup -/

/-- Scan a reversed character list for the extension, as `filepath.Ext`:
the suffix starting at the final dot of the final path element. -/
def extBack : List Char → List Char → String
  | [], _ => ""
  | c :: rest, acc =>
      if c = '/' then ""
      else if c = '.' then String.mk ('.' :: acc)
      else extBack rest (c :: acc)

/-- Model of `filepath.Ext`. -/
def pathExt (s : String) : String := extBack s.data.reverse []

/-- The built-in table of Go's `mime` package.  (At runtime the package may
merge system tables; none of them assigns a type to `.cache`, the only
extension the cache layer ever produces.) -/
def builtinMimeTypes : List (String × String) :=
  [(".avif", "image/avif"), (".css", "text/css; charset=utf-8"),
   (".gif", "image/gif"), (".htm", "text/html; charset=utf-8"),
   (".html", "text/html; charset=utf-8"), (".jpeg", "image/jpeg"),
   (".jpg", "image/jpeg"), (".js", "text/javascript; charset=utf-8"),
   (".json", "application/json"), (".mjs", "text/javascript; charset=utf-8"),
   (".pdf", "application/pdf"), (".png", "image/png"),
   (".svg", "image/svg+xml"), (".wasm", "application/wasm"),
   (".webp", "image/webp"), (".xml", "text/xml; charset=utf-8")]

/-- Model of `mime.TypeByExtension`: exact lookup, then case-folded. -/
def mimeTypeByExtension (ext : String) : String :=
  match List.lookup ext builtinMimeTypes with
  | some t => t
  | none =>
    match List.lookup (goToLower ext) builtinMimeTypes with
    | some t => t
    | none => ""

/-- The Content-Type the cache layer stamps on reconstructed responses:
`mime.TypeByExtension(filepath.Ext(path))` with the octet-stream fallback. -/
def contentTypeOf (path : String) : String :=
  let c := mimeTypeByExtension (pathExt path)
  if c = "" then "application/octet-stream" else c

/-- Model of `filepath.Join(dir, file)` for the shapes the handler builds:
a non-empty directory joined to a separator-free file name (`filepath.Clean`
is the identity on these). -/
def joinPath (dir file : String) : String :=
  if dir = "" then file else dir ++ "/" ++ file

/-! ## Cache handler (model of `pkg/forwardproxy/cache.go`)

The filesystem is modelled as the state of the single cache path a request
touches (`entry`), together with the current time and fault-injection flags
for each filesystem operation the handler performs.  Durations and times
are nanoseconds. -/

/-- An on-disk cache entry: its body bytes and its modification time. -/
structure CacheFile where
  content : List Nat
  modTime : Int
deriving DecidableEq, Repr

/-- The request as the cache layer sees it. -/
structure Request where
  method : String
  url : URL
deriving DecidableEq, Repr

/-- The world a single `ServeFromCacheOrFetch` call runs in. -/
structure CacheWorld where
  /-- The cache file currently stored at the request's cache path. -/
  entry : Option CacheFile
  /-- `time.Now()` in nanoseconds. -/
  now : Int
  /-- `os.Stat` fails with an error that is not `IsNotExist`. -/
  statFails : Bool
  /-- `os.ReadFile` fails. -/
  readFails : Bool
  /-- `os.Remove` fails (with an error that is not `IsNotExist`). -/
  removeFails : Bool
  /-- `os.MkdirAll` fails. -/
  mkdirFails : Bool
  /-- `os.WriteFile` fails. -/
  writeFails : Bool
deriving DecidableEq, Repr

/-- Outcome of invoking the fetcher (`FetchFunc`). -/
inductive FetchOutcome where
  | failure
  | success (status : Int) (header : List (String × String)) (body : List Nat)
deriving DecidableEq, Repr

/-- An `http.Response` as far as the claims are concerned. -/
structure Response where
  statusCode : Int
  header : List (String × String)
  bodyClosed : Bool
deriving DecidableEq, Repr

/-- The error value `ServeFromCacheOrFetch` (or its helper) returns. -/
inductive GoError where
  /-- A non-`IsNotExist` `os.Stat` error (returned by `serveFromCacheFile`,
  logged and dropped by `ServeFromCacheOrFetch`). -/
  | statErr
  /-- The fetcher's error passed through verbatim (cache-disabled branch). -/
  | fetchErrRaw
  /-- The fetcher's error wrapped as `failed to fetch origin for <url>`. -/
  | fetchWrapped (u : URL)
deriving DecidableEq, Repr

/-- Result of the helper `serveFromCacheFile`, plus the post-state of the
cache path and which filesystem calls ran. -/
structure CacheReadResult where
  resp : Option Response
  body : List Nat
  found : Bool
  error : Option GoError
  entry : Option CacheFile
  readCalled : Bool
  removeCalled : Bool
deriving DecidableEq, Repr

/-- Model of `CacheHandler` (the fetcher is passed separately). -/
structure CacheHandler where
  cacheDir : String
  cacheTTL : Int
deriving DecidableEq, Repr

/-- Model of `NewCacheHandler`: a negative TTL is replaced by 0. -/
def NewCacheHandler (cacheDir : String) (cacheTTL : Int) : CacheHandler :=
  { cacheDir := cacheDir, cacheTTL := if cacheTTL < 0 then 0 else cacheTTL }

/-- Model of `serveFromCacheFile`: stat, TTL check with best-effort removal
of expired entries, read with removal of unreadable entries, and
construction of the dummy 200 response. -/
def serveFromCacheFile (ttl : Int) (path : String) (w : CacheWorld) : CacheReadResult :=
  if w.statFails then
    { resp := none, body := [], found := false, error := some .statErr,
      entry := w.entry, readCalled := false, removeCalled := false }
  else
    match w.entry with
    | none =>
      { resp := none, body := [], found := false, error := none,
        entry := none, readCalled := false, removeCalled := false }
    | some f =>
      if w.now - f.modTime > ttl then
        { resp := none, body := [], found := false, error := none,
          entry := if w.removeFails then some f else none,
          readCalled := false, removeCalled := true }
      else if w.readFails then
        { resp := none, body := [], found := false, error := none,
          entry := if w.removeFails then some f else none,
          readCalled := true, removeCalled := true }
      else
        { resp := some
            { statusCode := 200,
              header :=
                [("Content-Length", natRepr f.content.length),
                 ("Last-Modified", httpTimeFormat f.modTime),
                 ("Content-Type", contentTypeOf path)],
              bodyClosed := false },
          body := f.content, found := true, error := none,
          entry := some f, readCalled := true, removeCalled := false }

/-- Result of `ServeFromCacheOrFetch`, plus the post-state of the cache
path and a trace of which operations ran. -/
structure ServeResult where
  resp : Option Response
  body : List Nat
  servedFromCache : Bool
  error : Option GoError
  entry : Option CacheFile
  fetchCalled : Bool
  statCalled : Bool
  readCalled : Bool
  removeCalled : Bool
  mkdirAttempted : Bool
  writeAttempted : Bool
deriving DecidableEq, Repr

/-- Model of `ServeFromCacheOrFetch`: disabled-cache bypass, cache lookup
(errors logged, not returned), fetch on miss, and `saveToCache` for 2xx
origin responses (`MkdirAll` then `WriteFile`, removing the file if the
write fails). -/
def ServeFromCacheOrFetch (h : CacheHandler) (r : Request) (w : CacheWorld)
    (fetch : FetchOutcome) : ServeResult :=
  if h.cacheTTL ≤ 0 ∨ h.cacheDir = "" then
    match fetch with
    | .failure =>
      { resp := none, body := [], servedFromCache := false,
        error := some .fetchErrRaw, entry := w.entry, fetchCalled := true,
        statCalled := false, readCalled := false, removeCalled := false,
        mkdirAttempted := false, writeAttempted := false }
    | .success st hd b =>
      { resp := some { statusCode := st, header := hd, bodyClosed := false },
        body := b, servedFromCache := false, error := none, entry := w.entry,
        fetchCalled := true, statCalled := false, readCalled := false,
        removeCalled := false, mkdirAttempted := false, writeAttempted := false }
  else
    let cachePath := joinPath h.cacheDir (generateCacheKey r.method r.url)
    let cr := serveFromCacheFile h.cacheTTL cachePath w
    if cr.found then
      { resp := cr.resp, body := cr.body, servedFromCache := true,
        error := none, entry := cr.entry, fetchCalled := false,
        statCalled := true, readCalled := cr.readCalled,
        removeCalled := cr.removeCalled, mkdirAttempted := false,
        writeAttempted := false }
    else
      match fetch with
      | .failure =>
        { resp := none, body := [], servedFromCache := false,
          error := some (.fetchWrapped r.url), entry := cr.entry,
          fetchCalled := true, statCalled := true, readCalled := cr.readCalled,
          removeCalled := cr.removeCalled, mkdirAttempted := false,
          writeAttempted := false }
      | .success st hd b =>
        if 200 ≤ st ∧ st < 300 then
          if w.mkdirFails then
            { resp := some { statusCode := st, header := hd, bodyClosed := true },
              body := b, servedFromCache := false, error := none,
              entry := cr.entry, fetchCalled := true, statCalled := true,
              readCalled := cr.readCalled, removeCalled := cr.removeCalled,
              mkdirAttempted := true, writeAttempted := false }
          else if w.writeFails then
            { resp := some { statusCode := st, header := hd, bodyClosed := true },
              body := b, servedFromCache := false, error := none,
              entry := none, fetchCalled := true, statCalled := true,
              readCalled := cr.readCalled, removeCalled := true,
              mkdirAttempted := true, writeAttempted := true }
          else
            { resp := some { statusCode := st, header := hd, bodyClosed := true },
              body := b, servedFromCache := false, error := none,
              entry := some { content := b, modTime := w.now },
              fetchCalled := true, statCalled := true,
              readCalled := cr.readCalled, removeCalled := cr.removeCalled,
              mkdirAttempted := true, writeAttempted := true }
        else
          { resp := some { statusCode := st, header := hd, bodyClosed := false },
            body := b, servedFromCache := false, error := none,
            entry := cr.entry, fetchCalled := true, statCalled := true,
            readCalled := cr.readCalled, removeCalled := cr.removeCalled,
            mkdirAttempted := false, writeAttempted := false }

/-! ## Cache cleaner (model of `runCleanup` in `pkg/cachecleaner/cleaner.go`)

The recursive walk is modelled by the list of entries `filepath.WalkDir`
visits, each with fault-injection flags for the per-entry operations. -/

/-- One entry visited by the cleanup walk. -/
structure WalkEntry where
  path : String
  isDir : Bool
  modTime : Int
  /-- The walk passed a non-nil access error for this entry. -/
  accessErr : Bool
  /-- `d.Info()` fails. -/
  infoErr : Bool
  /-- `os.Remove` fails. -/
  removeErr : Bool
deriving DecidableEq, Repr

/-- The walk function of `runCleanup` for one entry, threading the
`(deletedCount, deleted paths)` accumulator.  Directories (including the
root) are skipped; per-entry errors are logged and the walk continues. -/
def cleanupStep (minModTime : Int) (st : Nat × List String) (e : WalkEntry) :
    Nat × List String :=
  if e.accessErr then st
  else if e.isDir then st
  else if e.infoErr then st
  else if e.modTime < minModTime then
    if e.removeErr then st else (st.1 + 1, st.2 ++ [e.path])
  else st

/-- Model of `runCleanup`: walks all entries, deleting regular files whose
modification time is before `now - cacheTTL`.  Returns the deletion count
and the deleted paths. -/
def runCleanup (cacheTTL : Int) (now : Int) (entries : List WalkEntry) :
    Nat × List String :=
  entries.foldl (cleanupStep (now - cacheTTL)) (0, [])

/-- The per-entry deletion criterion of `runCleanup`: a regular file, all
its operations succeed, and its modification time is before the minimum. -/
def deletable (minModTime : Int) (e : WalkEntry) : Bool :=
  ¬e.accessErr ∧ ¬e.isDir ∧ ¬e.infoErr ∧ e.modTime < minModTime ∧ ¬e.removeErr

/-! ## Configuration structures and `compareConfigs` (model of
`pkg/config/structs.go` and `cmd/main.go`) -/

structure StaticDirConfig where
  path : String
deriving DecidableEq, Repr

/-- `StaticConfig`; `dirs` is the route-key → directory map, represented by
an association list queried through first-match lookup. -/
structure StaticConfig where
  enabled : Bool
  dirs : List (String × StaticDirConfig)
deriving DecidableEq, Repr

structure CacheCfg where
  enabled : Bool
  cacheDir : String
  cacheTTL : String
deriving DecidableEq, Repr

structure ProxyConfig where
  enabled : Bool
  cache : CacheCfg
  domains : List String
deriving DecidableEq, Repr

structure HTTPConfig where
  enabled : Bool
  addr : String
  port : Int
  static : StaticConfig
  forwardProxy : ProxyConfig
deriving DecidableEq, Repr

structure CacheCleanupConfig where
  interval : String
deriving DecidableEq, Repr

structure Config where
  http : HTTPConfig
  proxyCacheCleanup : CacheCleanupConfig
deriving DecidableEq, Repr

/-- `reflect.DeepEqual` on the `dirs` map: the maps represented by the two
association lists agree on every key (of either list). -/
def dirsDeepEqual (a b : List (String × StaticDirConfig)) : Bool :=
  (a.map Prod.fst ++ b.map Prod.fst).all
    (fun k => decide (List.lookup k a = List.lookup k b))

def staticDeepEqual (x y : StaticConfig) : Bool :=
  (x.enabled == y.enabled) && dirsDeepEqual x.dirs y.dirs

/-- `reflect.DeepEqual` on the HTTP configuration subtree.  All fields are
compared structurally; slices element-wise in order; the `dirs` map by key
lookup. -/
def httpDeepEqual (x y : HTTPConfig) : Bool :=
  (x.enabled == y.enabled) && (x.addr == y.addr) && (x.port == y.port) &&
    staticDeepEqual x.static y.static && (x.forwardProxy == y.forwardProxy)

/-- Whether the proxy cache (and hence the cleaner) is effectively enabled
in a configuration, as computed inside `compareConfigs`. -/
def proxyCacheEnabled (c : Config) : Bool :=
  c.http.forwardProxy.enabled && c.http.forwardProxy.cache.enabled &&
    c.http.forwardProxy.cache.cacheDir ≠ ""

/-- Model of `compareConfigs`: returns `(restartServer, restartCleaner)`.
`none` stands for a nil `*config.Config`. -/
def compareConfigs : Option Config → Option Config → Bool × Bool
  | none, _ => (true, true)
  | some _, none => (true, true)
  | some o, some n =>
    let restartServer := !httpDeepEqual o.http n.http
    let restartCleaner :=
      if proxyCacheEnabled n then
        !proxyCacheEnabled o ||
          (o.proxyCacheCleanup.interval != n.proxyCacheCleanup.interval) ||
          (o.http.forwardProxy.cache.cacheDir != n.http.forwardProxy.cache.cacheDir) ||
          (o.http.forwardProxy.cache.cacheTTL != n.http.forwardProxy.cache.cacheTTL)
      else
        proxyCacheEnabled o
    (restartServer, restartCleaner)

/-! ## Duration parsing (model of `StrToDuration` and `GetInterval` in
`pkg/config/helpers.go`, and of Go's `time.ParseDuration`)

Durations are nanosecond counts.  The unsigned 64-bit accumulators of Go's
parser are `Nat`s with the overflow checks written out against `2^63`.
Where Go computes the fractional contribution in `float64`
(`uint64(float64(f) * (float64(unit) / scale))`), the model uses the exact
value `f * unit / scale` rounded toward zero; the two agree on all inputs
whose fraction has few enough digits for `float64` to be exact, in
particular on everything `StrToDuration` itself generates.  Likewise
`strconv.ParseFloat` and the 6-decimal `%f` formatting are modelled by
exact decimal (mantissa/power-of-ten) arithmetic with round-half-to-even. -/

/-- ASCII whitespace trimmed by `strings.TrimSpace` (the non-ASCII
code points in `unicode.IsSpace` do not occur in duration strings). -/
def isGoSpace (c : Char) : Bool :=
  c = ' ' ∨ c = '\t' ∨ c = '\n' ∨ c = '\x0b' ∨ c = '\x0c' ∨ c = '\r'

def trimSpaceList (l : List Char) : List Char :=
  ((l.dropWhile isGoSpace).reverse.dropWhile isGoSpace).reverse

/-- ASCII digit test, as Go's byte comparisons `'0' <= c && c <= '9'`. -/
def isDigitChar (c : Char) : Bool := 48 ≤ c.toNat ∧ c.toNat ≤ 57

/-- The number/unit split of `StrToDuration`: the prefix of digits and
dots, and the rest from the first other character on. -/
def splitNumUnit : List Char → List Char × List Char
  | [] => ([], [])
  | c :: rest =>
      if isDigitChar c ∨ c = '.' then
        let p := splitNumUnit rest
        (c :: p.1, p.2)
      else ([], c :: rest)

/-- Value of a digit list read in base 10. -/
def digitsToNat (l : List Char) : Nat :=
  l.foldl (fun a c => a * 10 + (c.toNat - 48)) 0

/-- Split a digits-and-dots list at the first dot. -/
def splitDot (l : List Char) : List Char × List Char :=
  (l.takeWhile (fun c => ¬c = '.'), (l.dropWhile (fun c => ¬c = '.')).drop 1)

/-- Model of `strconv.ParseFloat` on the digits-and-dots strings the
number/unit split produces: defined iff the string is nonempty, has at most
one dot and at least one digit.  The exact decimal value is returned as a
mantissa/scale pair `(man, scale)` denoting `man / 10^scale`. -/
def parseDecRat (l : List Char) : Option (Nat × Nat) :=
  if l ≠ [] ∧ (∀ c ∈ l, isDigitChar c ∨ c = '.') ∧ l.count '.' ≤ 1 ∧ l.any isDigitChar then
    let p := splitDot l
    some (digitsToNat (p.1 ++ p.2), p.2.length)
  else none

/-- `a / b` rounded half-to-even (for positive `b`). -/
def roundHalfEvenDiv (a b : Nat) : Nat :=
  if 2 * (a % b) < b then a / b
  else if b < 2 * (a % b) then a / b + 1
  else if (a / b) % 2 = 0 then a / b else a / b + 1

/-- The 6-decimal fixed-point rendering of `fmt.Sprintf("%f", ·)` for the
non-negative value `man / 10^scale`. -/
def fmt6 (man scale : Nat) : List Char :=
  let n := roundHalfEvenDiv (man * 1000000) (10 ^ scale)
  natToDigitsList (n / 1000000) ++
    '.' :: List.replicate (6 - (natToDigitsList (n % 1000000)).length) '0' ++
      natToDigitsList (n % 1000000)

/-- Model of `time.leadingInt`: consume leading digits into an unsigned
64-bit accumulator, failing on overflow. -/
def leadingIntGo : List Char → Nat → Option (Nat × List Char)
  | [], x => some (x, [])
  | c :: rest, x =>
      if isDigitChar c then
        if x > 922337203685477580 then none
        else
          let y := x * 10 + (c.toNat - 48)
          if y > 9223372036854775808 then none
          else leadingIntGo rest y
      else some (x, c :: rest)

/-- Model of `time.leadingFraction`: consume fraction digits, freezing the
accumulator and scale once they would overflow. -/
def leadingFractionGo : List Char → Nat → Nat → Bool → Nat × Nat × List Char
  | [], x, scale, _ => (x, scale, [])
  | c :: rest, x, scale, overflow =>
      if isDigitChar c then
        if overflow then leadingFractionGo rest x scale true
        else if x > 922337203685477580 then leadingFractionGo rest x scale true
        else
          let y := x * 10 + (c.toNat - 48)
          if y > 9223372036854775808 then leadingFractionGo rest x scale true
          else leadingFractionGo rest y (scale * 10) false
      else (x, scale, c :: rest)

/-- Length of the unit token: characters up to the next digit or dot. -/
def unitLen : List Char → Nat
  | [] => 0
  | c :: rest => if c = '.' ∨ isDigitChar c then 0 else unitLen rest + 1

/-- Go's `unitMap`: nanoseconds per unit token. -/
def unitMapGo (u : List Char) : Option Nat :=
  if u = ['n', 's'] then some 1
  else if u = ['u', 's'] then some 1000
  else if u = ['µ', 's'] then some 1000
  else if u = ['μ', 's'] then some 1000
  else if u = ['m', 's'] then some 1000000
  else if u = ['s'] then some 1000000000
  else if u = ['m'] then some 60000000000
  else if u = ['h'] then some 3600000000000
  else none

deriving instance DecidableEq for Except

/-- Failure cases of the duration parsers. -/
inductive DurErr where
  | invalidDuration
  | missingUnit
  | unknownUnit
deriving DecidableEq, Repr

/-- The `for s != ""` loop of `time.ParseDuration`, accumulating into `d`.
Each pass consumes at least one character, so `fuel = length + 1` makes the
fuel case unreachable. -/
def parseDurLoop : Nat → List Char → Nat → Except DurErr Nat
  | 0, _, _ => .error .invalidDuration
  | _ + 1, [], d => .ok d
  | fuel + 1, c :: cs, d =>
      let s := c :: cs
      if ¬(c = '.' ∨ isDigitChar c) then .error .invalidDuration
      else
        match leadingIntGo s 0 with
        | none => .error .invalidDuration
        | some (v, s1) =>
          let pre := s1.length != s.length
          let fr :=
            match s1 with
            | '.' :: s1' =>
              let p := leadingFractionGo s1' 0 1 false
              (p.1, p.2.1, p.2.2, p.2.2.length != s1'.length)
            | _ => (0, 1, s1, false)
          let f := fr.1
          let scale := fr.2.1
          let s2 := fr.2.2.1
          let post := fr.2.2.2
          if !pre && !post then .error .invalidDuration
          else
            let i := unitLen s2
            if i = 0 then .error .missingUnit
            else
              match unitMapGo (s2.take i) with
              | none => .error .unknownUnit
              | some unit =>
                if v > 9223372036854775808 / unit then .error .invalidDuration
                else
                  let v1 := v * unit
                  let v2 := if f > 0 then v1 + f * unit / scale else v1
                  if f > 0 ∧ v2 > 9223372036854775808 then .error .invalidDuration
                  else
                    let d1 := d + v2
                    if d1 > 9223372036854775808 then .error .invalidDuration
                    else parseDurLoop fuel (s2.drop i) d1

/-- Model of `time.ParseDuration` (result in nanoseconds). -/
def parseDurationGo (s : List Char) : Except DurErr Int :=
  let sg :=
    match s with
    | c :: rest => if c = '-' ∨ c = '+' then (c == '-', rest) else (false, s)
    | [] => (false, s)
  let neg := sg.1
  let s1 := sg.2
  if s1 = ['0'] then .ok 0
  else if s1 = [] then .error .invalidDuration
  else
    match parseDurLoop (s1.length + 1) s1 0 with
    | .error e => .error e
    | .ok d =>
      if neg then .ok (-(d : Int))
      else if d > 9223372036854775807 then .error .invalidDuration
      else .ok (d : Int)

/-- Failure cases of `StrToDuration`, mirroring its distinct error paths. -/
inductive StrErr where
  /-- empty duration string -/
  | emptyStr
  /-- `strconv.ParseFloat` rejected the number before a `d`/`w` unit -/
  | badNumber
  /-- parsing the calculated `%fh` hours string failed -/
  | badCalculated
  /-- the `time.ParseDuration` fallback failed -/
  | badStandard (e : DurErr)
deriving DecidableEq, Repr

/-- Model of `config.StrToDuration`. -/
def StrToDuration (s : String) : Except StrErr Int :=
  let t := trimSpaceList s.data
  if t = [] then .error .emptyStr
  else if t = ['0'] then .ok 0
  else
    let p := splitNumUnit t
    let numStr := p.1
    let unitLower := p.2.map asciiLowerChar
    if unitLower = ['d'] then
      match parseDecRat numStr with
      | none => .error .badNumber
      | some days =>
        match parseDurationGo (fmt6 (days.1 * 24) days.2 ++ ['h']) with
        | .error _ => .error .badCalculated
        | .ok d => .ok d
    else if unitLower = ['w'] then
      match parseDecRat numStr with
      | none => .error .badNumber
      | some weeks =>
        match parseDurationGo (fmt6 (weeks.1 * 7 * 24) weeks.2 ++ ['h']) with
        | .error _ => .error .badCalculated
        | .ok d => .ok d
    else
      match parseDurationGo t with
      | .error e => .error (.badStandard e)
      | .ok d => .ok d

/-- Model of `CacheCleanupConfig.GetInterval`: empty interval defaults to
`"1h"`; a parsed non-positive interval is replaced by one hour. -/
def GetInterval (c : CacheCleanupConfig) : Except StrErr Int :=
  let intervalStr := if c.interval = "" then "1h" else c.interval
  match StrToDuration intervalStr with
  | .error e => .error e
  | .ok d => if d ≤ 0 then .ok 3600000000000 else .ok d

/-- The guard of `cachecleaner.StartCleaner`: with this condition true the
cleaner is not started and a no-op stop function is returned. -/
def startCleanerNoOp (interval : Int) (cacheDir : String) (cacheTTL : Int) : Bool :=
  interval ≤ 0 ∨ cacheDir = "" ∨ cacheTTL ≤ 0

/-! ## Helper lemmas about the cache read path -/

theorem sfcFresh (ttl : Int) (path : String) (w : CacheWorld) (f : CacheFile)
    (hentry : w.entry = some f) (hstat : w.statFails = false)
    (hread : w.readFails = false) (hfresh : w.now - f.modTime ≤ ttl) :
    serveFromCacheFile ttl path w =
      { resp := some
          { statusCode := 200,
            header :=
              [("Content-Length", natRepr f.content.length),
               ("Last-Modified", httpTimeFormat f.modTime),
               ("Content-Type", contentTypeOf path)],
            bodyClosed := false },
        body := f.content, found := true, error := none,
        entry := some f, readCalled := true, removeCalled := false } := by
  simp [serveFromCacheFile, hentry, hstat, hread, not_lt.mpr hfresh]

theorem sfcExpired (ttl : Int) (path : String) (w : CacheWorld) (f : CacheFile)
    (hentry : w.entry = some f) (hstat : w.statFails = false)
    (hexp : ttl < w.now - f.modTime) :
    serveFromCacheFile ttl path w =
      { resp := none, body := [], found := false, error := none,
        entry := if w.removeFails then some f else none,
        readCalled := false, removeCalled := true } := by
  simp [serveFromCacheFile, hentry, hstat, hexp]

theorem sfcMissing (ttl : Int) (path : String) (w : CacheWorld)
    (hentry : w.entry = none) (hstat : w.statFails = false) :
    serveFromCacheFile ttl path w =
      { resp := none, body := [], found := false, error := none,
        entry := none, readCalled := false, removeCalled := false } := by
  simp [serveFromCacheFile, hentry, hstat]

theorem sfcStatFail (ttl : Int) (path : String) (w : CacheWorld)
    (hsf : w.statFails = true) :
    serveFromCacheFile ttl path w =
      { resp := none, body := [], found := false, error := some .statErr,
        entry := w.entry, readCalled := false, removeCalled := false } := by
  simp [serveFromCacheFile, hsf]

theorem sfcReadFail (ttl : Int) (path : String) (w : CacheWorld) (f : CacheFile)
    (hentry : w.entry = some f) (hstat : w.statFails = false)
    (hread : w.readFails = true) (hfresh : w.now - f.modTime ≤ ttl) :
    serveFromCacheFile ttl path w =
      { resp := none, body := [], found := false, error := none,
        entry := if w.removeFails then some f else none,
        readCalled := true, removeCalled := true } := by
  simp [serveFromCacheFile, hentry, hstat, hread, not_lt.mpr hfresh]

/-- A cache read that does not report `found` leads to a miss result, for
every fetch outcome and fault pattern. -/
theorem notHitOfNotFound (dir : String) (ttl : Int) (r : Request)
    (w : CacheWorld) (fetch : FetchOutcome) (hguard : ¬((ttl : Int) ≤ 0 ∨ dir = ""))
    (hnf : (serveFromCacheFile ttl (joinPath dir (generateCacheKey r.method r.url)) w).found =
      false) :
    (ServeFromCacheOrFetch { cacheDir := dir, cacheTTL := ttl } r w fetch).servedFromCache =
      false := by
  cases fetch with
  | failure => simp [ServeFromCacheOrFetch, hguard, hnf]
  | success st hd b =>
    by_cases h2 : 200 ≤ st ∧ st < 300 <;>
      by_cases hm : w.mkdirFails = true <;>
        by_cases hw : w.writeFails = true <;>
          simp [ServeFromCacheOrFetch, hguard, hnf, h2, hm, hw]

/-! ## Helper lemmas about the cleanup walk -/

theorem cleanupStep_char (m : Int) (st : Nat × List String) (e : WalkEntry) :
    cleanupStep m st e =
      if deletable m e then (st.1 + 1, st.2 ++ [e.path]) else st := by
  obtain ⟨p, d, mt, ae, ie, re⟩ := e
  cases ae <;> cases d <;> cases ie <;> cases re <;>
    by_cases hmt : mt < m <;> simp [cleanupStep, deletable, hmt]

theorem runCleanup_foldl (m : Int) (entries : List WalkEntry) :
    ∀ cnt acc, entries.foldl (cleanupStep m) (cnt, acc) =
      (cnt + ((entries.filter (deletable m)).map WalkEntry.path).length,
        acc ++ (entries.filter (deletable m)).map WalkEntry.path) := by
  induction entries with
  | nil => simp
  | cons e es ih =>
    intro cnt acc
    rw [List.foldl_cons, cleanupStep_char]
    by_cases hd : deletable m e = true
    · rw [if_pos hd, ih, List.filter_cons_of_pos hd]
      simp [Nat.add_assoc, Nat.add_comm 1]
    · rw [if_neg (by simpa using hd), ih,
        List.filter_cons_of_neg (by simpa using hd)]

/-- Closed form of `runCleanup`: it deletes exactly the entries satisfying
`deletable`, in walk order. -/
theorem runCleanup_char (ttl now : Int) (entries : List WalkEntry) :
    runCleanup ttl now entries =
      (((entries.filter (deletable (now - ttl))).map WalkEntry.path).length,
        (entries.filter (deletable (now - ttl))).map WalkEntry.path) := by
  rw [runCleanup, runCleanup_foldl]
  simp

/-! ## Helper lemmas about configuration comparison -/

theorem dirsDeepEqual_self (l : List (String × StaticDirConfig)) :
    dirsDeepEqual l l = true := by
  simp [dirsDeepEqual]

theorem staticDeepEqual_self (x : StaticConfig) : staticDeepEqual x x = true := by
  simp [staticDeepEqual, dirsDeepEqual_self]

theorem httpDeepEqual_self (x : HTTPConfig) : httpDeepEqual x x = true := by
  simp [httpDeepEqual, staticDeepEqual_self]

/-! ## Helper lemmas about query normalization -/

theorem valuesOf_ne_nil_iff (q : List (String × String)) (k : String) :
    valuesOf q k ≠ [] ↔ k ∈ q.map Prod.fst := by
  rw [valuesOf, Ne, List.map_eq_nil_iff, List.filter_eq_nil_iff]
  push_neg
  constructor
  · rintro ⟨p, hp, he⟩
    exact List.mem_map.mpr ⟨p, hp, by simpa using he⟩
  · intro hk
    obtain ⟨p, hp, he⟩ := List.mem_map.mp hk
    exact ⟨p, hp, by simpa using he⟩

/-- `Values.Encode` depends only on the key → value-list map the pair list
represents. -/
theorem urlValuesEncode_congr (q1 q2 : List (String × String))
    (hv : ∀ k, valuesOf q1 k = valuesOf q2 k) :
    urlValuesEncode q1 = urlValuesEncode q2 := by
  have hmem : ∀ k, k ∈ (q1.map Prod.fst).dedup ↔ k ∈ (q2.map Prod.fst).dedup := by
    intro k
    rw [List.mem_dedup, List.mem_dedup, ← valuesOf_ne_nil_iff, ← valuesOf_ne_nil_iff,
      hv k]
  have hperm : (q1.map Prod.fst).dedup.Perm (q2.map Prod.fst).dedup :=
    (List.perm_ext_iff_of_nodup (List.nodup_dedup _) (List.nodup_dedup _)).mpr hmem
  have hkeys : List.insertionSort (· ≤ ·) (q1.map Prod.fst).dedup =
      List.insertionSort (· ≤ ·) (q2.map Prod.fst).dedup := by
    exact List.eq_of_perm_of_sorted
      (((List.perm_insertionSort _ _).trans hperm).trans
        (List.perm_insertionSort _ _).symm)
      (List.sorted_insertionSort _ _) (List.sorted_insertionSort _ _)
  have hfun : (fun k => (valuesOf q1 k).map
      (fun v => queryEscape k ++ "=" ++ queryEscape v)) =
      (fun k => (valuesOf q2 k).map
        (fun v => queryEscape k ++ "=" ++ queryEscape v)) :=
    funext fun k => by rw [hv k]
  rw [urlValuesEncode, urlValuesEncode, hkeys, hfun]

/-! ## Helper lemmas about decimal digits and duration parsing -/

/-- Reference characterisation of the digit expansion (the executable
`natToDigitsList` is fuel-driven; this recursion is the proof-friendly
view). -/
def natDigitsSpec (n : Nat) : List Char :=
  if n < 10 then [digitChar n]
  else natDigitsSpec (n / 10) ++ [digitChar (n % 10)]
termination_by n
decreasing_by exact Nat.div_lt_self (by omega) (by omega)

theorem natToDigitsAux_eq : ∀ fuel n acc, n < fuel →
    natToDigitsAux fuel n acc = natDigitsSpec n ++ acc := by
  intro fuel
  induction fuel with
  | zero => intro n acc h; omega
  | succ f ih =>
    intro n acc h
    by_cases h10 : n < 10
    · rw [natToDigitsAux, if_pos h10, natDigitsSpec, if_pos h10]
      simp
    · have hdiv : n / 10 < f := by
        have := Nat.div_lt_self (show 0 < n by omega) (show 1 < 10 by omega)
        omega
      rw [natToDigitsAux, if_neg h10, ih (n / 10) _ hdiv]
      conv_rhs => rw [natDigitsSpec]
      rw [if_neg h10]
      simp

theorem natToDigitsList_eq (n : Nat) : natToDigitsList n = natDigitsSpec n := by
  rw [natToDigitsList, natToDigitsAux_eq (n + 1) n [] (by omega)]
  simp

theorem digitChar_isDigit (d : Nat) (h : d < 10) : isDigitChar (digitChar d) = true := by
  interval_cases d <;> decide

theorem digitChar_toNat (d : Nat) (h : d < 10) : (digitChar d).toNat = 48 + d := by
  interval_cases d <;> decide

theorem natDigitsSpec_digits (n : Nat) : ∀ c ∈ natDigitsSpec n, isDigitChar c = true := by
  induction n using Nat.strong_induction_on with
  | _ n ih =>
    by_cases h10 : n < 10
    · rw [natDigitsSpec, if_pos h10]
      intro c hc
      rw [List.mem_singleton] at hc
      subst hc
      exact digitChar_isDigit n h10
    · rw [natDigitsSpec, if_neg h10]
      intro c hc
      rcases List.mem_append.mp hc with hl | hr
      · exact ih (n / 10) (Nat.div_lt_self (by omega) (by omega)) c hl
      · rw [List.mem_singleton] at hr
        subst hr
        exact digitChar_isDigit (n % 10) (Nat.mod_lt n (by omega))

theorem natDigitsSpec_ne_nil (n : Nat) : natDigitsSpec n ≠ [] := by
  by_cases h10 : n < 10 <;> rw [natDigitsSpec] <;> simp [h10]

theorem digitsToNat_append_singleton (l : List Char) (c : Char) :
    digitsToNat (l ++ [c]) = digitsToNat l * 10 + (c.toNat - 48) := by
  simp [digitsToNat, List.foldl_append]

theorem digitsToNat_natDigitsSpec (n : Nat) : digitsToNat (natDigitsSpec n) = n := by
  induction n using Nat.strong_induction_on with
  | _ n ih =>
    by_cases h10 : n < 10
    · rw [natDigitsSpec, if_pos h10]
      simp [digitsToNat, digitChar_toNat n h10]
    · rw [natDigitsSpec, if_neg h10, digitsToNat_append_singleton,
        ih (n / 10) (Nat.div_lt_self (by omega) (by omega)),
        digitChar_toNat (n % 10) (Nat.mod_lt n (by omega))]
      omega

/-- The digit-accumulation step shared by `digitsToNat` and `leadingIntGo`. -/
def foldDigits (x : Nat) (l : List Char) : Nat :=
  l.foldl (fun a c => a * 10 + (c.toNat - 48)) x

theorem foldDigits_nil (x : Nat) : foldDigits x [] = x := rfl

theorem foldDigits_cons (x : Nat) (c : Char) (l : List Char) :
    foldDigits x (c :: l) = foldDigits (x * 10 + (c.toNat - 48)) l := rfl

theorem foldDigits_zero (l : List Char) : foldDigits 0 l = digitsToNat l := rfl

theorem le_foldDigits (l : List Char) : ∀ x, x ≤ foldDigits x l := by
  induction l with
  | nil => intro x; exact Nat.le_refl x
  | cons c cs ih =>
    intro x
    rw [foldDigits_cons]
    exact le_trans (by omega) (ih (x * 10 + (c.toNat - 48)))

/-- `leadingInt` consumes exactly a maximal digit prefix, yielding its
value, when that value stays within 2^63. -/
theorem leadingIntGo_digits (ds : List Char) :
    ∀ (rest : List Char) (x : Nat), (∀ c ∈ ds, isDigitChar c = true) →
    (∀ c, rest.head? = some c → isDigitChar c = false) →
    foldDigits x ds ≤ 9223372036854775808 →
    leadingIntGo (ds ++ rest) x = some (foldDigits x ds, rest) := by
  induction ds with
  | nil =>
    intro rest x _ hrest _
    cases rest with
    | nil => rfl
    | cons c r =>
      have hc : isDigitChar c = false := hrest c rfl
      rw [List.nil_append, leadingIntGo, if_neg (by simp [hc]), foldDigits_nil]
  | cons c cs ih =>
    intro rest x hdig hrest hbound
    have hc : isDigitChar c = true := hdig c (List.mem_cons_self c cs)
    have hge : foldDigits (x * 10 + (c.toNat - 48)) cs ≥ x * 10 + (c.toNat - 48) :=
      le_foldDigits cs _
    have hx10 : x * 10 + (c.toNat - 48) ≤ 9223372036854775808 := by
      rw [foldDigits_cons] at hbound
      omega
    rw [List.cons_append, leadingIntGo, if_pos hc,
      if_neg (show ¬x > 922337203685477580 by omega),
      if_neg (show ¬x * 10 + (c.toNat - 48) > 9223372036854775808 by omega),
      ih rest _ (fun a ha => hdig a (List.mem_cons_of_mem c ha)) hrest
        (by rw [foldDigits_cons] at hbound; exact hbound)]
    rw [foldDigits_cons]

theorem notSpace_of_digit (c : Char) (h : isDigitChar c = true) : isGoSpace c = false := by
  simp only [isGoSpace, decide_eq_false_iff_not]
  rintro (h1 | h1 | h1 | h1 | h1 | h1) <;> (subst h1; exact absurd h (by decide))

theorem dropWhile_all_false {p : Char → Bool} :
    ∀ l : List Char, (∀ c ∈ l, p c = false) → List.dropWhile p l = l
  | [], _ => rfl
  | c :: cs, h => by
      rw [List.dropWhile_cons, if_neg (by simp [h c (List.mem_cons_self c cs)])]

theorem takeWhile_all_true {p : Char → Bool} :
    ∀ l : List Char, (∀ c ∈ l, p c = true) → List.takeWhile p l = l
  | [], _ => rfl
  | c :: cs, h => by
      rw [List.takeWhile_cons, if_pos (h c (List.mem_cons_self c cs)),
        takeWhile_all_true cs (fun a ha => h a (List.mem_cons_of_mem c ha))]

theorem dropWhile_all_true {p : Char → Bool} :
    ∀ l : List Char, (∀ c ∈ l, p c = true) → List.dropWhile p l = []
  | [], _ => rfl
  | c :: cs, h => by
      rw [List.dropWhile_cons, if_pos (h c (List.mem_cons_self c cs)),
        dropWhile_all_true cs (fun a ha => h a (List.mem_cons_of_mem c ha))]

theorem trimSpaceList_id (l : List Char) (h : ∀ c ∈ l, isGoSpace c = false) :
    trimSpaceList l = l := by
  have h2 : ∀ c ∈ l.reverse, isGoSpace c = false := fun c hc =>
    h c (List.mem_reverse.mp hc)
  rw [trimSpaceList, dropWhile_all_false l h, dropWhile_all_false l.reverse h2,
    List.reverse_reverse]

theorem splitNumUnit_digits (ds : List Char) (u : Char)
    (hdig : ∀ c ∈ ds, isDigitChar c = true)
    (hu1 : isDigitChar u = false) (hu2 : u ≠ '.') :
    splitNumUnit (ds ++ [u]) = (ds, [u]) := by
  induction ds with
  | nil =>
    rw [List.nil_append, splitNumUnit]
    simp [hu1, hu2]
  | cons c cs ih =>
    have hc : isDigitChar c = true := hdig c (List.mem_cons_self c cs)
    rw [List.cons_append, splitNumUnit, if_pos (Or.inl hc),
      ih (fun a ha => hdig a (List.mem_cons_of_mem c ha))]

theorem dot_not_digit (c : Char) (h : isDigitChar c = true) : c ≠ '.' := by
  intro he
  subst he
  simp [isDigitChar] at h

theorem parseDecRat_digits (ds : List Char) (hne : ds ≠ [])
    (hdig : ∀ c ∈ ds, isDigitChar c = true) :
    parseDecRat ds = some (digitsToNat ds, 0) := by
  have hnodot : '.' ∉ ds := fun hmem => dot_not_digit '.' (hdig '.' hmem) rfl
  have hp : ∀ c ∈ ds, (fun c => decide ¬c = '.') c = true := by
    intro c hc
    simp [dot_not_digit c (hdig c hc)]
  have hguard : ds ≠ [] ∧ (∀ c ∈ ds, isDigitChar c ∨ c = '.') ∧
      ds.count '.' ≤ 1 ∧ ds.any isDigitChar := by
    refine ⟨hne, fun c hc => Or.inl (hdig c hc), ?_, ?_⟩
    · rw [List.count_eq_zero.mpr hnodot]
      omega
    · cases ds with
      | nil => exact absurd rfl hne
      | cons a as =>
        simp only [List.any_cons, Bool.or_eq_true]
        exact Or.inl (hdig a (List.mem_cons_self a as))
  rw [parseDecRat, if_pos hguard, splitDot, takeWhile_all_true ds hp,
    dropWhile_all_true ds hp]
  simp [digitsToNat]

theorem roundHalfEvenDiv_one (a : Nat) : roundHalfEvenDiv a 1 = a := by
  simp [roundHalfEvenDiv, Nat.mod_one, Nat.div_one]

theorem fmt6_int (m : Nat) :
    fmt6 m 0 = natToDigitsList m ++ ('.' :: List.replicate 6 '0') := by
  rw [fmt6]
  simp only [pow_zero, roundHalfEvenDiv_one]
  rw [Nat.mul_div_cancel m (by norm_num), Nat.mul_mod_left]
  have h3 : natToDigitsList 0 = ['0'] := rfl
  rw [h3]
  simp [List.replicate_succ]

theorem natToDigitsList_ne_nil (m : Nat) : natToDigitsList m ≠ [] := by
  rw [natToDigitsList_eq]
  exact natDigitsSpec_ne_nil m

theorem natToDigitsList_digits (m : Nat) :
    ∀ c ∈ natToDigitsList m, isDigitChar c = true := by
  rw [natToDigitsList_eq]
  exact natDigitsSpec_digits m

theorem digitsToNat_natToDigitsList (m : Nat) : digitsToNat (natToDigitsList m) = m := by
  rw [natToDigitsList_eq]
  exact digitsToNat_natDigitsSpec m

/-- One pass of the duration-parse loop over `<digits>.000000h`. -/
theorem parseDurLoop_hours (m fuel : Nat)
    (hb : m * 3600000000000 ≤ 9223372036854775808) :
    parseDurLoop (fuel + 2)
        (natToDigitsList m ++ ('.' :: (List.replicate 6 '0' ++ ['h']))) 0 =
      .ok (m * 3600000000000) := by
  obtain ⟨c, cs, hds⟩ := List.exists_cons_of_ne_nil (natToDigitsList_ne_nil m)
  have hc : isDigitChar c = true :=
    natToDigitsList_digits m c (by rw [hds]; exact List.mem_cons_self c cs)
  have hli : leadingIntGo
      (natToDigitsList m ++ ('.' :: (List.replicate 6 '0' ++ ['h']))) 0 =
      some (m, '.' :: (List.replicate 6 '0' ++ ['h'])) := by
    have hres := leadingIntGo_digits (natToDigitsList m)
      ('.' :: (List.replicate 6 '0' ++ ['h'])) 0 (natToDigitsList_digits m)
      (fun a ha => by
        rw [List.head?_cons, Option.some.injEq] at ha
        subst ha
        decide)
      (by
        rw [foldDigits_zero, digitsToNat_natToDigitsList]
        exact le_trans (Nat.le_mul_of_pos_right m (by norm_num)) hb)
    rw [foldDigits_zero, digitsToNat_natToDigitsList] at hres
    exact hres
  have hlf : leadingFractionGo (List.replicate 6 '0' ++ ['h']) 0 1 false =
      (0, 1000000, ['h']) := by decide
  have hdiv : (9223372036854775808 : ℕ) / 3600000000000 = 2562047 := by norm_num
  have hm : ¬m > 2562047 := by omega
  have hpost : ((['h'] : List Char).length !=
      (List.replicate 6 '0' ++ ['h']).length) = true := by decide
  have hunitLen : unitLen ['h'] = 1 := by decide
  have hunitMap : unitMapGo (['h'].take 1) = some 3600000000000 := by decide
  rw [hds, List.cons_append]
  simp only [parseDurLoop]
  rw [if_neg (not_not_intro (Or.inr hc)), ← List.cons_append, ← hds, hli]
  simp only [hlf, hpost, hunitLen, hunitMap, hdiv]
  have hL := List.length_pos.mpr (natToDigitsList_ne_nil m)
  have hpre2 : (('.' :: (List.replicate 6 '0' ++ ['h'])).length !=
      (natToDigitsList m ++ ('.' :: (List.replicate 6 '0' ++ ['h']))).length) = true := by
    simp only [List.length_cons, List.length_append, List.length_replicate, bne_iff_ne,
      ne_eq]
    omega
  simp [hpre2, hm, parseDurLoop]
  exact hb

/-- `time.ParseDuration` on `<digits>.000000h` yields exactly the integer
hours value in nanoseconds, when within range. -/
theorem parse_hours (m : Nat) (hb : m * 3600000000000 ≤ 9223372036854775807) :
    parseDurationGo (natToDigitsList m ++ ('.' :: (List.replicate 6 '0' ++ ['h']))) =
      .ok (((m * 3600000000000 : ℕ) : Int)) := by
  obtain ⟨c, cs, hds⟩ := List.exists_cons_of_ne_nil (natToDigitsList_ne_nil m)
  have hc : isDigitChar c = true :=
    natToDigitsList_digits m c (by rw [hds]; exact List.mem_cons_self c cs)
  have hsign : ¬(c = '-' ∨ c = '+') := by
    rintro (h1 | h1) <;> (subst h1; exact absurd hc (by decide))
  have hne0 : c :: (cs ++ ('.' :: (List.replicate 6 '0' ++ ['h']))) ≠ ['0'] := by
    intro he
    have := congrArg List.length he
    simp [List.length_append] at this
  have hfuel : (c :: (cs ++ ('.' :: (List.replicate 6 '0' ++ ['h'])))).length + 1 =
      (cs.length + 8) + 2 := by
    simp [List.length_append]
  have hloop := parseDurLoop_hours m (cs.length + 8) (by omega)
  rw [hds, List.cons_append, parseDurationGo]
  simp only [if_neg hsign, if_neg hne0,
    if_neg (show ¬c :: (cs ++ ('.' :: (List.replicate 6 '0' ++ ['h']))) = [] by simp),
    hfuel]
  rw [← List.cons_append, ← hds, hloop]
  simp
  exact hb

/-- `StrToDuration` on an integer day count with a `d`/`D` suffix. -/
theorem strToDuration_intDays (ds : List Char) (u : Char) (hu : u = 'd' ∨ u = 'D')
    (hne : ds ≠ []) (hdig : ∀ c ∈ ds, isDigitChar c = true)
    (hb : digitsToNat ds * 86400000000000 ≤ 9223372036854775807) :
    StrToDuration (String.mk (ds ++ [u])) =
      .ok (((digitsToNat ds * 86400000000000 : ℕ) : Int)) := by
  have hu_nd : isDigitChar u = false := by rcases hu with h | h <;> (subst h; decide)
  have hu_dot : u ≠ '.' := by rcases hu with h | h <;> (subst h; decide)
  have hu_space : isGoSpace u = false := by rcases hu with h | h <;> (subst h; decide)
  have hnospace : ∀ c ∈ ds ++ [u], isGoSpace c = false := by
    intro c hc
    rcases List.mem_append.mp hc with h | h
    · exact notSpace_of_digit c (hdig c h)
    · rw [List.mem_singleton] at h
      subst h
      exact hu_space
  have hne0 : ds ++ [u] ≠ ['0'] := by
    rcases ds with _ | ⟨a, as⟩
    · exact absurd rfl hne
    · intro he
      simp at he
  have hsplit := splitNumUnit_digits ds u hdig hu_nd hu_dot
  have hlow : asciiLowerChar u = 'd' := by rcases hu with h | h <;> (subst h; decide)
  have hpd := parseDecRat_digits ds hne hdig
  have harith : digitsToNat ds * 24 * 3600000000000 =
      digitsToNat ds * 86400000000000 := by
    rw [Nat.mul_assoc]
  have hph := parse_hours (digitsToNat ds * 24) (by rw [harith]; exact hb)
  rw [StrToDuration, show (String.mk (ds ++ [u])).data = ds ++ [u] from rfl,
    trimSpaceList_id _ hnospace, if_neg (show ¬ds ++ [u] = [] by simp), if_neg hne0,
    hsplit]
  simp only [hpd, List.map_cons, List.map_nil, hlow, fmt6_int]
  rw [List.append_assoc, List.cons_append, hph]
  simp only [harith]
  simp

/-- `StrToDuration` on an integer week count with a `w`/`W` suffix. -/
theorem strToDuration_intWeeks (ds : List Char) (u : Char) (hu : u = 'w' ∨ u = 'W')
    (hne : ds ≠ []) (hdig : ∀ c ∈ ds, isDigitChar c = true)
    (hb : digitsToNat ds * 604800000000000 ≤ 9223372036854775807) :
    StrToDuration (String.mk (ds ++ [u])) =
      .ok (((digitsToNat ds * 604800000000000 : ℕ) : Int)) := by
  have hu_nd : isDigitChar u = false := by rcases hu with h | h <;> (subst h; decide)
  have hu_dot : u ≠ '.' := by rcases hu with h | h <;> (subst h; decide)
  have hu_space : isGoSpace u = false := by rcases hu with h | h <;> (subst h; decide)
  have hnospace : ∀ c ∈ ds ++ [u], isGoSpace c = false := by
    intro c hc
    rcases List.mem_append.mp hc with h | h
    · exact notSpace_of_digit c (hdig c h)
    · rw [List.mem_singleton] at h
      subst h
      exact hu_space
  have hne0 : ds ++ [u] ≠ ['0'] := by
    rcases ds with _ | ⟨a, as⟩
    · exact absurd rfl hne
    · intro he
      simp at he
  have hsplit := splitNumUnit_digits ds u hdig hu_nd hu_dot
  have hlow : asciiLowerChar u = 'w' := by rcases hu with h | h <;> (subst h; decide)
  have hpd := parseDecRat_digits ds hne hdig
  have harith : digitsToNat ds * 7 * 24 * 3600000000000 =
      digitsToNat ds * 604800000000000 := by
    rw [Nat.mul_assoc, Nat.mul_assoc]
  have hph := parse_hours (digitsToNat ds * 7 * 24) (by rw [harith]; exact hb)
  rw [StrToDuration, show (String.mk (ds ++ [u])).data = ds ++ [u] from rfl,
    trimSpaceList_id _ hnospace, if_neg (show ¬ds ++ [u] = [] by simp), if_neg hne0,
    hsplit]
  simp only [List.map_cons, List.map_nil, hlow]
  rw [if_neg (show ¬(['w'] : List Char) = ['d'] by decide)]
  simp only [hpd, fmt6_int]
  rw [List.append_assoc, List.cons_append, hph]
  simp only [harith]
  simp

/-! ## Verified claims -/

/-- C8 (amended): `StrToDuration` maps `"0"` to the zero duration and the
empty string to an error; an integer count with a (case-insensitive) `d` or
`w` suffix maps to exactly that many 24-hour or 7×24-hour periods whenever
the result fits a 64-bit duration; every other input in the non-`d`/`w`
branch is handed to the standard Go duration grammar.  Fractional day/week
counts go through 6-decimal `%f` formatting of the hour count and may
therefore lose sub-precision (see the counterexample). -/
theorem C8_strToDuration_grammar :
    StrToDuration "0" = .ok 0 ∧
    StrToDuration "" = .error .emptyStr ∧
    (∀ ds u, (u = 'd' ∨ u = 'D') → ds ≠ [] → (∀ c ∈ ds, isDigitChar c = true) →
      digitsToNat ds * 86400000000000 ≤ 9223372036854775807 →
      StrToDuration (String.mk (ds ++ [u])) =
        .ok (((digitsToNat ds * 86400000000000 : ℕ) : Int))) ∧
    (∀ ds u, (u = 'w' ∨ u = 'W') → ds ≠ [] → (∀ c ∈ ds, isDigitChar c = true) →
      digitsToNat ds * 604800000000000 ≤ 9223372036854775807 →
      StrToDuration (String.mk (ds ++ [u])) =
        .ok (((digitsToNat ds * 604800000000000 : ℕ) : Int))) ∧
    (∀ s : String, trimSpaceList s.data ≠ [] → trimSpaceList s.data ≠ ['0'] →
      (splitNumUnit (trimSpaceList s.data)).2.map asciiLowerChar ≠ ['d'] →
      (splitNumUnit (trimSpaceList s.data)).2.map asciiLowerChar ≠ ['w'] →
      StrToDuration s =
        match parseDurationGo (trimSpaceList s.data) with
        | .error e => .error (.badStandard e)
        | .ok d => .ok d) := by
  refine ⟨by decide, rfl, strToDuration_intDays, strToDuration_intWeeks, ?_⟩
  intro s ht h0 hd hw
  rw [StrToDuration]
  simp only [if_neg ht, if_neg h0]
  rw [if_neg hd, if_neg hw]

/-- C8 witness: the theorem applied at `"7d"`, `"2W"` and (default branch)
`"1h30m"`. -/
theorem C8_strToDuration_grammar_witness :
    StrToDuration (String.mk (['7'] ++ ['d'])) =
      .ok (((digitsToNat ['7'] * 86400000000000 : ℕ) : Int)) ∧
    StrToDuration (String.mk (['2'] ++ ['W'])) =
      .ok (((digitsToNat ['2'] * 604800000000000 : ℕ) : Int)) ∧
    StrToDuration "1h30m" =
      match parseDurationGo (trimSpaceList "1h30m".data) with
      | .error e => .error (.badStandard e)
      | .ok d => .ok d :=
  ⟨C8_strToDuration_grammar.2.2.1 ['7'] 'd' (Or.inl rfl) (by decide) (by decide)
      (by decide),
   C8_strToDuration_grammar.2.2.2.1 ['2'] 'W' (Or.inr rfl) (by decide) (by decide)
      (by decide),
   C8_strToDuration_grammar.2.2.2.2 "1h30m" (by decide) (by decide) (by decide)
      (by decide)⟩

/-- C8 counterexample: `"0.0000001d"` denotes 0.0000001 days = 8640000 ns,
but the code answers 7200000 ns: the hour count 0.0000024 is formatted with
six decimal places as `0.000002` before reparsing. -/
theorem C8_fractional_days_counterexample :
    StrToDuration "0.0000001d" = .ok 7200000 ∧
    ¬StrToDuration "0.0000001d" = .ok 8640000 := by
  constructor <;> decide

/-- C1 (amended): with positive TTL, non-empty cache directory, an entry
present, and no filesystem faults, a read at age `Δ = now − modTime` is
served as a cache hit iff `Δ ≤ TTL` (the code expires only strictly beyond
the TTL), and is treated as a miss with best-effort deletion of the entry
iff `Δ > TTL`. -/
theorem C1_hit_iff_age_le_ttl (dir : String) (ttl : Int) (r : Request)
    (w : CacheWorld) (f : CacheFile) (fetch : FetchOutcome)
    (httl : 0 < ttl) (hdir : dir ≠ "") (hentry : w.entry = some f)
    (hstat : w.statFails = false) (hread : w.readFails = false) :
    ((ServeFromCacheOrFetch { cacheDir := dir, cacheTTL := ttl } r w fetch).servedFromCache =
        true ↔ w.now - f.modTime ≤ ttl) ∧
    (ttl < w.now - f.modTime →
      (ServeFromCacheOrFetch { cacheDir := dir, cacheTTL := ttl } r w fetch).servedFromCache =
          false ∧
        (ServeFromCacheOrFetch { cacheDir := dir, cacheTTL := ttl } r w fetch).removeCalled =
          true) := by
  have hguard : ¬((ttl : Int) ≤ 0 ∨ dir = "") := by
    push_neg
    exact ⟨by omega, hdir⟩
  by_cases hfresh : w.now - f.modTime ≤ ttl
  · constructor
    · simp [ServeFromCacheOrFetch, hguard,
        sfcFresh ttl _ w f hentry hstat hread hfresh, hfresh]
    · intro hexp
      omega
  · have hexp : ttl < w.now - f.modTime := by omega
    have hmiss := sfcExpired ttl
      (joinPath dir (generateCacheKey r.method r.url)) w f hentry hstat hexp
    cases fetch with
    | failure =>
      simp [ServeFromCacheOrFetch, hguard, hmiss, hfresh]
    | success st hd b =>
      by_cases h2 : 200 ≤ st ∧ st < 300 <;>
        by_cases hm : w.mkdirFails = true <;>
          by_cases hw : w.writeFails = true <;>
            simp [ServeFromCacheOrFetch, hguard, hmiss, hfresh, h2, hm, hw]

/-- C1 witness: the theorem applied at TTL 1000 and age 500 (hit) for a
concrete request and world. -/
theorem C1_hit_iff_age_le_ttl_witness :
    ((ServeFromCacheOrFetch { cacheDir := "/c", cacheTTL := 1000 }
        { method := "GET",
          url := { scheme := "http", host := "example.com", path := "/a", query := [] } }
        { entry := some { content := [1, 2, 3], modTime := 0 }, now := 500,
          statFails := false, readFails := false, removeFails := false,
          mkdirFails := false, writeFails := false }
        (.success 200 [] [9])).servedFromCache = true ↔
      (500 : Int) - 0 ≤ 1000) :=
  (C1_hit_iff_age_le_ttl "/c" 1000
    { method := "GET",
      url := { scheme := "http", host := "example.com", path := "/a", query := [] } }
    { entry := some { content := [1, 2, 3], modTime := 0 }, now := 500,
      statFails := false, readFails := false, removeFails := false,
      mkdirFails := false, writeFails := false }
    { content := [1, 2, 3], modTime := 0 } (.success 200 [] [9])
    (by decide) (by decide) rfl rfl rfl).1

/-- C1 counterexample: at age Δ exactly equal to the TTL (entry written at
time 0, read at time 1000 with TTL 1000 ns) the code serves a cache hit,
whereas the claim demands a miss with deletion for Δ ≥ TTL. -/
theorem C1_boundary_counterexample :
    (ServeFromCacheOrFetch { cacheDir := "/c", cacheTTL := 1000 }
        { method := "GET",
          url := { scheme := "http", host := "example.com", path := "/a", query := [] } }
        { entry := some { content := [1, 2, 3], modTime := 0 }, now := 1000,
          statFails := false, readFails := false, removeFails := false,
          mkdirFails := false, writeFails := false }
        (.success 200 [] [9])).servedFromCache = true ∧
    (1000 : Int) - 0 ≥ 1000 := by
  constructor
  · rfl
  · decide

/-- C3: on a cache miss (no entry, no faults) with a successful fetch,
the body is persisted at the storage path (with the directory created)
iff the origin status is 2xx, `servedFromCache` is false in every case,
and for a non-2xx status no cache file is created and the origin response
is returned unmodified (body left open) for forwarding. -/
theorem C3_persist_iff_2xx (dir : String) (ttl : Int) (r : Request)
    (w : CacheWorld) (st : Int) (hd : List (String × String)) (b : List Nat)
    (httl : 0 < ttl) (hdir : dir ≠ "") (hentry : w.entry = none)
    (hstat : w.statFails = false) (hmk : w.mkdirFails = false)
    (hwr : w.writeFails = false) :
    ((ServeFromCacheOrFetch { cacheDir := dir, cacheTTL := ttl } r w
        (.success st hd b)).servedFromCache = false) ∧
    (200 ≤ st ∧ st < 300 →
      (ServeFromCacheOrFetch { cacheDir := dir, cacheTTL := ttl } r w
          (.success st hd b)).entry = some { content := b, modTime := w.now } ∧
        (ServeFromCacheOrFetch { cacheDir := dir, cacheTTL := ttl } r w
          (.success st hd b)).mkdirAttempted = true ∧
        (ServeFromCacheOrFetch { cacheDir := dir, cacheTTL := ttl } r w
          (.success st hd b)).writeAttempted = true ∧
        (ServeFromCacheOrFetch { cacheDir := dir, cacheTTL := ttl } r w
          (.success st hd b)).resp =
            some { statusCode := st, header := hd, bodyClosed := true } ∧
        (ServeFromCacheOrFetch { cacheDir := dir, cacheTTL := ttl } r w
          (.success st hd b)).error = none) ∧
    (¬(200 ≤ st ∧ st < 300) →
      (ServeFromCacheOrFetch { cacheDir := dir, cacheTTL := ttl } r w
          (.success st hd b)).entry = none ∧
        (ServeFromCacheOrFetch { cacheDir := dir, cacheTTL := ttl } r w
          (.success st hd b)).mkdirAttempted = false ∧
        (ServeFromCacheOrFetch { cacheDir := dir, cacheTTL := ttl } r w
          (.success st hd b)).writeAttempted = false ∧
        (ServeFromCacheOrFetch { cacheDir := dir, cacheTTL := ttl } r w
          (.success st hd b)).resp =
            some { statusCode := st, header := hd, bodyClosed := false } ∧
        (ServeFromCacheOrFetch { cacheDir := dir, cacheTTL := ttl } r w
          (.success st hd b)).body = b ∧
        (ServeFromCacheOrFetch { cacheDir := dir, cacheTTL := ttl } r w
          (.success st hd b)).error = none) := by
  have hguard : ¬((ttl : Int) ≤ 0 ∨ dir = "") := by
    push_neg
    exact ⟨by omega, hdir⟩
  have hmiss := sfcMissing ttl
    (joinPath dir (generateCacheKey r.method r.url)) w hentry hstat
  refine ⟨?_, fun h2 => ?_, fun h2 => ?_⟩
  · by_cases h2 : 200 ≤ st ∧ st < 300 <;>
      simp [ServeFromCacheOrFetch, hguard, hmiss, h2, hmk, hwr]
  · simp [ServeFromCacheOrFetch, hguard, hmiss, h2, hmk, hwr]
  · simp [ServeFromCacheOrFetch, hguard, hmiss, h2, hmk, hwr]

/-- C3 witness: the theorem applied at a 404 origin response: the response
is forwarded with status 404 and no cache file is created. -/
theorem C3_persist_iff_2xx_witness :
    (ServeFromCacheOrFetch { cacheDir := "/c", cacheTTL := 1000 }
        { method := "GET",
          url := { scheme := "http", host := "example.com", path := "/a", query := [] } }
        { entry := none, now := 5, statFails := false, readFails := false,
          removeFails := false, mkdirFails := false, writeFails := false }
        (.success 404 [("X", "y")] [7])).entry = none ∧
    (ServeFromCacheOrFetch { cacheDir := "/c", cacheTTL := 1000 }
        { method := "GET",
          url := { scheme := "http", host := "example.com", path := "/a", query := [] } }
        { entry := none, now := 5, statFails := false, readFails := false,
          removeFails := false, mkdirFails := false, writeFails := false }
        (.success 404 [("X", "y")] [7])).resp =
      some { statusCode := 404, header := [("X", "y")], bodyClosed := false } := by
  have h := (C3_persist_iff_2xx "/c" 1000
    { method := "GET",
      url := { scheme := "http", host := "example.com", path := "/a", query := [] } }
    { entry := none, now := 5, statFails := false, readFails := false,
      removeFails := false, mkdirFails := false, writeFails := false }
    404 [("X", "y")] [7] (by decide) (by decide) rfl rfl rfl rfl).2.2 (by decide)
  exact ⟨h.1, h.2.2.2.1⟩

/-- C5: `ServeFromCacheOrFetch` returns a non-nil error only when the
origin fetch itself fails (raw in the disabled-cache branch, wrapped on a
miss); a successful fetch always yields a nil error regardless of any
stat/read/remove/mkdir/write failure; and stat or read failures fall
through to the origin fetch (fail-open) rather than surfacing. -/
theorem C5_error_only_from_fetch (h : CacheHandler) (r : Request)
    (w : CacheWorld) (fetch : FetchOutcome) :
    (∀ e, (ServeFromCacheOrFetch h r w fetch).error = some e →
      fetch = .failure ∧ (ServeFromCacheOrFetch h r w fetch).fetchCalled = true ∧
        (e = .fetchErrRaw ∨ e = .fetchWrapped r.url)) ∧
    (∀ st hd b, fetch = .success st hd b →
      (ServeFromCacheOrFetch h r w fetch).error = none) ∧
    (0 < h.cacheTTL → h.cacheDir ≠ "" → w.statFails = true →
      (ServeFromCacheOrFetch h r w fetch).fetchCalled = true ∧
        (ServeFromCacheOrFetch h r w fetch).servedFromCache = false) ∧
    (∀ f, 0 < h.cacheTTL → h.cacheDir ≠ "" → w.entry = some f →
      w.statFails = false → w.readFails = true → w.now - f.modTime ≤ h.cacheTTL →
      (ServeFromCacheOrFetch h r w fetch).fetchCalled = true ∧
        (ServeFromCacheOrFetch h r w fetch).servedFromCache = false) := by
  obtain ⟨dir, ttl⟩ := h
  by_cases hguard : (ttl : Int) ≤ 0 ∨ dir = ""
  · refine ⟨?_, ?_, ?_, ?_⟩
    · intro e
      cases fetch with
      | failure =>
        simp [ServeFromCacheOrFetch, hguard]
        exact fun h => Or.inl h.symm
      | success st hd b => simp [ServeFromCacheOrFetch, hguard]
    · intro st hd b hf
      subst hf
      simp [ServeFromCacheOrFetch, hguard]
    · intro h1 h2 _
      have h1' : (0 : Int) < ttl := h1
      exact absurd hguard (by push_neg; exact ⟨by omega, h2⟩)
    · intro f h1 h2 _ _ _ _
      have h1' : (0 : Int) < ttl := h1
      exact absurd hguard (by push_neg; exact ⟨by omega, h2⟩)
  · have hsplit :
        (serveFromCacheFile ttl (joinPath dir (generateCacheKey r.method r.url)) w).found =
            true ∨
          (serveFromCacheFile ttl (joinPath dir (generateCacheKey r.method r.url)) w).found =
            false := by
      cases (serveFromCacheFile ttl (joinPath dir (generateCacheKey r.method r.url)) w).found
      · right; rfl
      · left; rfl
    refine ⟨?_, ?_, ?_, ?_⟩
    · intro e he
      rcases hsplit with hf | hf
      · revert he
        simp [ServeFromCacheOrFetch, hguard, hf]
      · cases fetch with
        | failure =>
          have hv : (ServeFromCacheOrFetch { cacheDir := dir, cacheTTL := ttl } r w
              .failure).error = some (.fetchWrapped r.url) := by
            simp [ServeFromCacheOrFetch, hguard, hf]
          have he2 : GoError.fetchWrapped r.url = e := Option.some.inj (hv.symm.trans he)
          refine ⟨rfl, ?_, Or.inr he2.symm⟩
          simp [ServeFromCacheOrFetch, hguard, hf]
        | success st hd b =>
          revert he
          by_cases h2 : 200 ≤ st ∧ st < 300 <;>
            by_cases hm : w.mkdirFails = true <;>
              by_cases hw : w.writeFails = true <;>
                simp [ServeFromCacheOrFetch, hguard, hf, h2, hm, hw]
    · intro st hd b hfe
      subst hfe
      rcases hsplit with hf | hf
      · simp [ServeFromCacheOrFetch, hguard, hf]
      · by_cases h2 : 200 ≤ st ∧ st < 300 <;>
          by_cases hm : w.mkdirFails = true <;>
            by_cases hw : w.writeFails = true <;>
              simp [ServeFromCacheOrFetch, hguard, hf, h2, hm, hw]
    · intro h1 h2 hsf
      have hs : serveFromCacheFile ttl (joinPath dir (generateCacheKey r.method r.url)) w =
          { resp := none, body := [], found := false, error := some .statErr,
            entry := w.entry, readCalled := false, removeCalled := false } := by
        simp [serveFromCacheFile, hsf]
      cases fetch with
      | failure => simp [ServeFromCacheOrFetch, hguard, hs]
      | success st hd b =>
        by_cases h2x : 200 ≤ st ∧ st < 300 <;>
          by_cases hm : w.mkdirFails = true <;>
            by_cases hw : w.writeFails = true <;>
              simp [ServeFromCacheOrFetch, hguard, hs, h2x, hm, hw]
    · intro f h1 h2 hentry hsf hrf hfresh
      have hs : serveFromCacheFile ttl (joinPath dir (generateCacheKey r.method r.url)) w =
          { resp := none, body := [], found := false, error := none,
            entry := if w.removeFails then some f else none,
            readCalled := true, removeCalled := true } := by
        simp [serveFromCacheFile, hentry, hsf, hrf, not_lt.mpr hfresh]
      cases fetch with
      | failure => simp [ServeFromCacheOrFetch, hguard, hs]
      | success st hd b =>
        by_cases h2x : 200 ≤ st ∧ st < 300 <;>
          by_cases hm : w.mkdirFails = true <;>
            by_cases hw : w.writeFails = true <;>
              simp [ServeFromCacheOrFetch, hguard, hs, h2x, hm, hw]

/-- C5 witness: the theorem applied with a successful 200 fetch despite a
write failure (nil error), and with a stat failure (fail-open fetch). -/
theorem C5_error_only_from_fetch_witness :
    (ServeFromCacheOrFetch { cacheDir := "/c", cacheTTL := 1000 }
        { method := "GET",
          url := { scheme := "http", host := "example.com", path := "/a", query := [] } }
        { entry := none, now := 5, statFails := false, readFails := false,
          removeFails := false, mkdirFails := false, writeFails := true }
        (.success 200 [] [9])).error = none ∧
    (ServeFromCacheOrFetch { cacheDir := "/c", cacheTTL := 1000 }
        { method := "GET",
          url := { scheme := "http", host := "example.com", path := "/a", query := [] } }
        { entry := none, now := 5, statFails := true, readFails := false,
          removeFails := false, mkdirFails := false, writeFails := false }
        (.success 200 [] [9])).fetchCalled = true ∧
    (ServeFromCacheOrFetch { cacheDir := "/c", cacheTTL := 1000 }
        { method := "GET",
          url := { scheme := "http", host := "example.com", path := "/a", query := [] } }
        { entry := none, now := 5, statFails := true, readFails := false,
          removeFails := false, mkdirFails := false, writeFails := false }
        (.success 200 [] [9])).servedFromCache = false :=
  ⟨(C5_error_only_from_fetch { cacheDir := "/c", cacheTTL := 1000 }
      { method := "GET",
        url := { scheme := "http", host := "example.com", path := "/a", query := [] } }
      { entry := none, now := 5, statFails := false, readFails := false,
        removeFails := false, mkdirFails := false, writeFails := true }
      (.success 200 [] [9])).2.1 200 [] [9] rfl,
   ((C5_error_only_from_fetch { cacheDir := "/c", cacheTTL := 1000 }
      { method := "GET",
        url := { scheme := "http", host := "example.com", path := "/a", query := [] } }
      { entry := none, now := 5, statFails := true, readFails := false,
        removeFails := false, mkdirFails := false, writeFails := false }
      (.success 200 [] [9])).2.2.1 (by decide) (by decide) rfl).1,
   ((C5_error_only_from_fetch { cacheDir := "/c", cacheTTL := 1000 }
      { method := "GET",
        url := { scheme := "http", host := "example.com", path := "/a", query := [] } }
      { entry := none, now := 5, statFails := true, readFails := false,
        removeFails := false, mkdirFails := false, writeFails := false }
      (.success 200 [] [9])).2.2.1 (by decide) (by decide) rfl).2⟩

/-- C7: whenever `ServeFromCacheOrFetch` reports a cache hit, the entry was
present and fresh, the returned response has status 200, a Content-Length
equal to the body length, a Last-Modified rendering the file's modification
time, a Content-Type guessed from the stored key's extension (with the
octet-stream fallback inside `contentTypeOf`), the body equals the cache
file's contents, and the origin was never contacted. -/
theorem C7_hit_response_shape (h : CacheHandler) (r : Request) (w : CacheWorld)
    (fetch : FetchOutcome)
    (hit : (ServeFromCacheOrFetch h r w fetch).servedFromCache = true) :
    ∃ f, w.entry = some f ∧ w.now - f.modTime ≤ h.cacheTTL ∧
      (ServeFromCacheOrFetch h r w fetch).resp = some
        { statusCode := 200,
          header :=
            [("Content-Length", natRepr f.content.length),
             ("Last-Modified", httpTimeFormat f.modTime),
             ("Content-Type",
               contentTypeOf (joinPath h.cacheDir (generateCacheKey r.method r.url)))],
          bodyClosed := false } ∧
      (ServeFromCacheOrFetch h r w fetch).body = f.content ∧
      (ServeFromCacheOrFetch h r w fetch).fetchCalled = false := by
  obtain ⟨dir, ttl⟩ := h
  by_cases hguard : (ttl : Int) ≤ 0 ∨ dir = ""
  · exfalso
    revert hit
    cases fetch <;> simp [ServeFromCacheOrFetch, hguard]
  · cases hsf : w.statFails with
    | true =>
      have hnf : (serveFromCacheFile ttl
          (joinPath dir (generateCacheKey r.method r.url)) w).found = false := by
        rw [sfcStatFail ttl _ w hsf]
      have := notHitOfNotFound dir ttl r w fetch hguard hnf
      simp [this] at hit
    | false =>
      cases hent : w.entry with
      | none =>
        have hnf : (serveFromCacheFile ttl
            (joinPath dir (generateCacheKey r.method r.url)) w).found = false := by
          rw [sfcMissing ttl _ w hent hsf]
        have := notHitOfNotFound dir ttl r w fetch hguard hnf
        simp [this] at hit
      | some f =>
        by_cases hfresh : w.now - f.modTime ≤ ttl
        · cases hrd : w.readFails with
          | true =>
            have hnf : (serveFromCacheFile ttl
                (joinPath dir (generateCacheKey r.method r.url)) w).found = false := by
              rw [sfcReadFail ttl _ w f hent hsf hrd hfresh]
            have := notHitOfNotFound dir ttl r w fetch hguard hnf
            simp [this] at hit
          | false =>
            refine ⟨f, rfl, hfresh, ?_, ?_, ?_⟩ <;>
              simp [ServeFromCacheOrFetch, hguard,
                sfcFresh ttl _ w f hent hsf hrd hfresh]
        · have hexp : ttl < w.now - f.modTime := by omega
          have hnf : (serveFromCacheFile ttl
              (joinPath dir (generateCacheKey r.method r.url)) w).found = false := by
            rw [sfcExpired ttl _ w f hent hsf hexp]
          have := notHitOfNotFound dir ttl r w fetch hguard hnf
          simp [this] at hit

/-- C7 witness: the theorem applied at a concrete hit; the reconstructed
response carries the computed Content-Length, Last-Modified and
Content-Type values. -/
theorem C7_hit_response_shape_witness :
    ∃ f, (some { content := [1, 2, 3], modTime := 0 } : Option CacheFile) = some f ∧
      (500 : Int) - f.modTime ≤ 1000 ∧
      (ServeFromCacheOrFetch { cacheDir := "/c", cacheTTL := 1000 }
          { method := "GET",
            url := { scheme := "http", host := "example.com", path := "/a", query := [] } }
          { entry := some { content := [1, 2, 3], modTime := 0 }, now := 500,
            statFails := false, readFails := false, removeFails := false,
            mkdirFails := false, writeFails := false }
          (.success 200 [] [9])).resp = some
        { statusCode := 200,
          header :=
            [("Content-Length", natRepr f.content.length),
             ("Last-Modified", httpTimeFormat f.modTime),
             ("Content-Type",
               contentTypeOf (joinPath "/c" (generateCacheKey "GET"
                 { scheme := "http", host := "example.com", path := "/a", query := [] })))],
          bodyClosed := false } ∧
      (ServeFromCacheOrFetch { cacheDir := "/c", cacheTTL := 1000 }
          { method := "GET",
            url := { scheme := "http", host := "example.com", path := "/a", query := [] } }
          { entry := some { content := [1, 2, 3], modTime := 0 }, now := 500,
            statFails := false, readFails := false, removeFails := false,
            mkdirFails := false, writeFails := false }
          (.success 200 [] [9])).body = f.content ∧
      (ServeFromCacheOrFetch { cacheDir := "/c", cacheTTL := 1000 }
          { method := "GET",
            url := { scheme := "http", host := "example.com", path := "/a", query := [] } }
          { entry := some { content := [1, 2, 3], modTime := 0 }, now := 500,
            statFails := false, readFails := false, removeFails := false,
            mkdirFails := false, writeFails := false }
          (.success 200 [] [9])).fetchCalled = false :=
  C7_hit_response_shape { cacheDir := "/c", cacheTTL := 1000 }
    { method := "GET",
      url := { scheme := "http", host := "example.com", path := "/a", query := [] } }
    { entry := some { content := [1, 2, 3], modTime := 0 }, now := 500,
      statFails := false, readFails := false, removeFails := false,
      mkdirFails := false, writeFails := false }
    (.success 200 [] [9]) (by rfl)

/-- C2 (amended): two method/URL pairs that agree on the method, scheme and
host case-insensitively, on the path, and on the parsed query as a map from
parameter name to its value sequence (so parameter order across distinct
names is irrelevant, but the order of values of a repeated name matters)
produce the identical cache key; the key is a function of method and URL
only, so it depends on no header or body. -/
theorem C2_cache_key_normalization (m1 m2 : String) (u1 u2 : URL)
    (hm : goToUpper m1 = goToUpper m2)
    (hs : goToLower u1.scheme = goToLower u2.scheme)
    (hh : goToLower u1.host = goToLower u2.host)
    (hp : u1.path = u2.path)
    (hq : ∀ k, valuesOf u1.query k = valuesOf u2.query k) :
    generateCacheKey m1 u1 = generateCacheKey m2 u2 := by
  rw [generateCacheKey, generateCacheKey, cacheKeyData, cacheKeyData,
    hm, hs, hh, hp, urlValuesEncode_congr u1.query u2.query hq]

/-- C2 witness: the theorem applied to `get http://Example.com/a?a=1&b=2`
and `GET HTTP://example.COM/a?b=2&a=1`. -/
theorem C2_cache_key_normalization_witness :
    generateCacheKey "get"
        { scheme := "http", host := "Example.com", path := "/a",
          query := [("a", "1"), ("b", "2")] } =
      generateCacheKey "GET"
        { scheme := "HTTP", host := "example.COM", path := "/a",
          query := [("b", "2"), ("a", "1")] } :=
  C2_cache_key_normalization "get" "GET"
    { scheme := "http", host := "Example.com", path := "/a",
      query := [("a", "1"), ("b", "2")] }
    { scheme := "HTTP", host := "example.COM", path := "/a",
      query := [("b", "2"), ("a", "1")] }
    (by decide) (by decide) (by decide) rfl
    (fun k => by
      by_cases h1 : (("a" : String) == k) = true
      · by_cases h2 : (("b" : String) == k) = true
        · exact absurd ((eq_of_beq h1).trans (eq_of_beq h2).symm) (by decide)
        · simp [valuesOf, List.filter, h1, h2]
      · by_cases h2 : (("b" : String) == k) = true
        · simp [valuesOf, List.filter, h1, h2]
        · simp [valuesOf, List.filter, h1, h2])

/-- C2 counterexample: the two queries `a=1&a=2` and `a=2&a=1` consist of
the same set of parameters, merely in a different order in the query
string, yet `generateCacheKey` maps them to different keys (the per-name
value order is preserved by the encoder). -/
theorem C2_param_set_counterexample :
    (∀ p : String × String,
      p ∈ ([("a", "1"), ("a", "2")] : List (String × String)) ↔
        p ∈ ([("a", "2"), ("a", "1")] : List (String × String))) ∧
    generateCacheKey "GET"
        { scheme := "http", host := "example.com", path := "/a",
          query := [("a", "1"), ("a", "2")] } ≠
      generateCacheKey "GET"
        { scheme := "http", host := "example.com", path := "/a",
          query := [("a", "2"), ("a", "1")] } := by
  constructor
  · intro p
    simp only [List.mem_cons, List.not_mem_nil, or_false]
    tauto
  · decide

/-- C4: `compareConfigs` requests a server restart exactly when the whole
HTTP subtree differs; a snapshot differing only in the static configuration
restarts the server but not the cleaner; a snapshot differing only in the
cleanup interval (with the cleaner still wanted) restarts the cleaner but
not the server. -/
theorem C4_compareConfigs_diff :
    (∀ o n : Config, (compareConfigs (some o) (some n)).1 = true ↔
      httpDeepEqual o.http n.http = false) ∧
    (∀ o n : Config,
      o.proxyCacheCleanup = n.proxyCacheCleanup →
      o.http.enabled = n.http.enabled → o.http.addr = n.http.addr →
      o.http.port = n.http.port → o.http.forwardProxy = n.http.forwardProxy →
      staticDeepEqual o.http.static n.http.static = false →
      compareConfigs (some o) (some n) = (true, false)) ∧
    (∀ o n : Config, o.http = n.http → proxyCacheEnabled n = true →
      o.proxyCacheCleanup.interval ≠ n.proxyCacheCleanup.interval →
      compareConfigs (some o) (some n) = (false, true)) := by
  refine ⟨?_, ?_, ?_⟩
  · intro o n
    simp [compareConfigs]
  · intro o n hclean hen haddr hport hfp hstatic
    have hpce : proxyCacheEnabled o = proxyCacheEnabled n := by
      simp [proxyCacheEnabled, hfp]
    have hdir : o.http.forwardProxy.cache.cacheDir =
        n.http.forwardProxy.cache.cacheDir := by rw [hfp]
    have httlX : o.http.forwardProxy.cache.cacheTTL =
        n.http.forwardProxy.cache.cacheTTL := by rw [hfp]
    have hint : o.proxyCacheCleanup.interval = n.proxyCacheCleanup.interval := by
      rw [hclean]
    have hserver : httpDeepEqual o.http n.http = false := by
      simp [httpDeepEqual, hstatic]
    cases hpn : proxyCacheEnabled n <;>
      simp [compareConfigs, hserver, hpn, hpce, hint, hdir, httlX]
  · intro o n hhttp hpn hint
    have hpceo : proxyCacheEnabled o = true := by
      simp only [proxyCacheEnabled, hhttp]
      exact hpn
    simp [compareConfigs, hhttp, httpDeepEqual_self, hpn, hpceo, bne_iff_ne, hint]

/-- C4 witness: the theorem applied to concrete snapshots differing only in
the static directory path (server restarts, cleaner untouched) and only in
the cleanup interval (cleaner restarts, server untouched). -/
theorem C4_compareConfigs_diff_witness :
    compareConfigs
        (some { http := { enabled := true, addr := "0.0.0.0", port := 8080,
                          static := { enabled := true, dirs := [("s", { path := "/x" })] },
                          forwardProxy := { enabled := true,
                                            cache := { enabled := true, cacheDir := "/c",
                                                       cacheTTL := "7d" },
                                            domains := ["example.com"] } },
                proxyCacheCleanup := { interval := "1h" } })
        (some { http := { enabled := true, addr := "0.0.0.0", port := 8080,
                          static := { enabled := true, dirs := [("s", { path := "/y" })] },
                          forwardProxy := { enabled := true,
                                            cache := { enabled := true, cacheDir := "/c",
                                                       cacheTTL := "7d" },
                                            domains := ["example.com"] } },
                proxyCacheCleanup := { interval := "1h" } }) = (true, false) ∧
    compareConfigs
        (some { http := { enabled := true, addr := "0.0.0.0", port := 8080,
                          static := { enabled := true, dirs := [("s", { path := "/x" })] },
                          forwardProxy := { enabled := true,
                                            cache := { enabled := true, cacheDir := "/c",
                                                       cacheTTL := "7d" },
                                            domains := ["example.com"] } },
                proxyCacheCleanup := { interval := "1h" } })
        (some { http := { enabled := true, addr := "0.0.0.0", port := 8080,
                          static := { enabled := true, dirs := [("s", { path := "/x" })] },
                          forwardProxy := { enabled := true,
                                            cache := { enabled := true, cacheDir := "/c",
                                                       cacheTTL := "7d" },
                                            domains := ["example.com"] } },
                proxyCacheCleanup := { interval := "2h" } }) = (false, true) :=
  ⟨C4_compareConfigs_diff.2.1
      { http := { enabled := true, addr := "0.0.0.0", port := 8080,
                  static := { enabled := true, dirs := [("s", { path := "/x" })] },
                  forwardProxy := { enabled := true,
                                    cache := { enabled := true, cacheDir := "/c",
                                               cacheTTL := "7d" },
                                    domains := ["example.com"] } },
        proxyCacheCleanup := { interval := "1h" } }
      { http := { enabled := true, addr := "0.0.0.0", port := 8080,
                  static := { enabled := true, dirs := [("s", { path := "/y" })] },
                  forwardProxy := { enabled := true,
                                    cache := { enabled := true, cacheDir := "/c",
                                               cacheTTL := "7d" },
                                    domains := ["example.com"] } },
        proxyCacheCleanup := { interval := "1h" } }
      rfl rfl rfl rfl rfl (by decide),
   C4_compareConfigs_diff.2.2
      { http := { enabled := true, addr := "0.0.0.0", port := 8080,
                  static := { enabled := true, dirs := [("s", { path := "/x" })] },
                  forwardProxy := { enabled := true,
                                    cache := { enabled := true, cacheDir := "/c",
                                               cacheTTL := "7d" },
                                    domains := ["example.com"] } },
        proxyCacheCleanup := { interval := "1h" } }
      { http := { enabled := true, addr := "0.0.0.0", port := 8080,
                  static := { enabled := true, dirs := [("s", { path := "/x" })] },
                  forwardProxy := { enabled := true,
                                    cache := { enabled := true, cacheDir := "/c",
                                               cacheTTL := "7d" },
                                    domains := ["example.com"] } },
        proxyCacheCleanup := { interval := "2h" } }
      rfl (by decide) (by decide)⟩

/-- C6: one `runCleanup` pass deletes exactly the regular files whose
modification time is strictly older than `now − TTL` (and whose operations
succeed), never deletes a directory, leaves files within the TTL untouched,
and a per-file access/info/deletion failure changes nothing about how the
remaining entries are processed. -/
theorem C6_cleanup_sweep (ttl now : Int) :
    (∀ entries : List WalkEntry,
      runCleanup ttl now entries =
        (((entries.filter (deletable (now - ttl))).map WalkEntry.path).length,
          (entries.filter (deletable (now - ttl))).map WalkEntry.path)) ∧
    (∀ entries : List WalkEntry, ∀ q,
      q ∈ (runCleanup ttl now entries).2 ↔
        ∃ e ∈ entries, e.path = q ∧ deletable (now - ttl) e = true) ∧
    (∀ entries : List WalkEntry, (entries.map WalkEntry.path).Nodup →
      ∀ e ∈ entries, (e.isDir = true ∨ now - ttl ≤ e.modTime) →
        e.path ∉ (runCleanup ttl now entries).2) ∧
    (∀ l1 l2 : List WalkEntry, ∀ e, deletable (now - ttl) e = false →
      runCleanup ttl now (l1 ++ e :: l2) = runCleanup ttl now (l1 ++ l2)) := by
  have hmem : ∀ entries : List WalkEntry, ∀ q,
      q ∈ (runCleanup ttl now entries).2 ↔
        ∃ e ∈ entries, e.path = q ∧ deletable (now - ttl) e = true := by
    intro entries q
    rw [runCleanup_char]
    simp only [List.mem_map, List.mem_filter]
    constructor
    · rintro ⟨e, ⟨hmem, hdel⟩, hpath⟩
      exact ⟨e, hmem, hpath, hdel⟩
    · rintro ⟨e, hmem, hpath, hdel⟩
      exact ⟨e, ⟨hmem, hdel⟩, hpath⟩
  refine ⟨fun entries => runCleanup_char ttl now entries, hmem, ?_, ?_⟩
  · intro entries hnd e hmem2 hsafe hdel
    obtain ⟨e', hmem', hpath', hdel'⟩ := (hmem entries e.path).mp hdel
    have he : e' = e := List.inj_on_of_nodup_map hnd hmem' hmem2 hpath'
    subst he
    simp only [deletable, decide_eq_true_eq] at hdel'
    rcases hsafe with hdir | hmt
    · exact hdel'.2.1 (by simp [hdir])
    · exact absurd hdel'.2.2.2.1 (by omega)
  · intro l1 l2 e hde
    rw [runCleanup_char, runCleanup_char]
    rw [List.filter_append, List.filter_append, List.filter_cons_of_neg (by simpa using hde)]

/-- C6 witness: the theorem applied to a concrete walk with one expired
file, one fresh file and one directory: only the expired file is deleted. -/
theorem C6_cleanup_sweep_witness :
    runCleanup 100 1000
        [{ path := "a", isDir := false, modTime := 899, accessErr := false,
           infoErr := false, removeErr := false },
         { path := "b", isDir := false, modTime := 900, accessErr := false,
           infoErr := false, removeErr := false },
         { path := "d", isDir := true, modTime := 0, accessErr := false,
           infoErr := false, removeErr := false }] =
      ((([{ path := "a", isDir := false, modTime := 899, accessErr := false,
            infoErr := false, removeErr := false },
          { path := "b", isDir := false, modTime := 900, accessErr := false,
            infoErr := false, removeErr := false },
          { path := "d", isDir := true, modTime := 0, accessErr := false,
            infoErr := false, removeErr := false }].filter
            (deletable (1000 - 100))).map WalkEntry.path).length,
        ([{ path := "a", isDir := false, modTime := 899, accessErr := false,
            infoErr := false, removeErr := false },
          { path := "b", isDir := false, modTime := 900, accessErr := false,
            infoErr := false, removeErr := false },
          { path := "d", isDir := true, modTime := 0, accessErr := false,
            infoErr := false, removeErr := false }].filter
            (deletable (1000 - 100))).map WalkEntry.path) ∧
    ¬("b" ∈ (runCleanup 100 1000
        [{ path := "a", isDir := false, modTime := 899, accessErr := false,
           infoErr := false, removeErr := false },
         { path := "b", isDir := false, modTime := 900, accessErr := false,
           infoErr := false, removeErr := false },
         { path := "d", isDir := true, modTime := 0, accessErr := false,
           infoErr := false, removeErr := false }]).2) :=
  ⟨(C6_cleanup_sweep 100 1000).1 _,
   ((C6_cleanup_sweep 100 1000).2.2.1
     [{ path := "a", isDir := false, modTime := 899, accessErr := false,
        infoErr := false, removeErr := false },
      { path := "b", isDir := false, modTime := 900, accessErr := false,
        infoErr := false, removeErr := false },
      { path := "d", isDir := true, modTime := 0, accessErr := false,
        infoErr := false, removeErr := false }] (by decide)
     { path := "b", isDir := false, modTime := 900, accessErr := false,
       infoErr := false, removeErr := false } (by decide) (Or.inr (by decide)))⟩

/-- C9: for every negative configured cache TTL, `NewCacheHandler` stores a
TTL of 0, and every subsequent `ServeFromCacheOrFetch` call on that handler
bypasses the cache entirely: the origin is fetched directly, the result is
reported with `servedFromCache = false`, no cache file is statted, read,
written, or deleted, and the cache state is untouched. -/
theorem C9_negative_ttl_bypasses (dir : String) (ttl : Int) (httl : ttl < 0)
    (r : Request) (w : CacheWorld) (fetch : FetchOutcome) :
    (NewCacheHandler dir ttl).cacheTTL = 0 ∧
    ((ServeFromCacheOrFetch (NewCacheHandler dir ttl) r w fetch).servedFromCache = false ∧
     (ServeFromCacheOrFetch (NewCacheHandler dir ttl) r w fetch).statCalled = false ∧
     (ServeFromCacheOrFetch (NewCacheHandler dir ttl) r w fetch).readCalled = false ∧
     (ServeFromCacheOrFetch (NewCacheHandler dir ttl) r w fetch).removeCalled = false ∧
     (ServeFromCacheOrFetch (NewCacheHandler dir ttl) r w fetch).mkdirAttempted = false ∧
     (ServeFromCacheOrFetch (NewCacheHandler dir ttl) r w fetch).writeAttempted = false ∧
     (ServeFromCacheOrFetch (NewCacheHandler dir ttl) r w fetch).entry = w.entry ∧
     (ServeFromCacheOrFetch (NewCacheHandler dir ttl) r w fetch).fetchCalled = true) ∧
    (∀ st hd b, fetch = .success st hd b →
      (ServeFromCacheOrFetch (NewCacheHandler dir ttl) r w fetch).resp =
          some { statusCode := st, header := hd, bodyClosed := false } ∧
        (ServeFromCacheOrFetch (NewCacheHandler dir ttl) r w fetch).body = b ∧
        (ServeFromCacheOrFetch (NewCacheHandler dir ttl) r w fetch).error = none) ∧
    (fetch = .failure →
      (ServeFromCacheOrFetch (NewCacheHandler dir ttl) r w fetch).resp = none ∧
        (ServeFromCacheOrFetch (NewCacheHandler dir ttl) r w fetch).error = some .fetchErrRaw) := by
  have h0 : (NewCacheHandler dir ttl).cacheTTL = 0 := by
    simp [NewCacheHandler, if_pos httl]
  refine ⟨h0, ?_, ?_, ?_⟩ <;> cases fetch <;>
    simp [ServeFromCacheOrFetch, h0]

/-- C9 witness: the theorem applied at TTL −5 with a concrete request,
world and fetch outcome. -/
theorem C9_negative_ttl_bypasses_witness :
    (NewCacheHandler "/c" (-5)).cacheTTL = 0 ∧
    (ServeFromCacheOrFetch (NewCacheHandler "/c" (-5))
        { method := "GET",
          url := { scheme := "http", host := "example.com", path := "/a", query := [] } }
        { entry := some { content := [1], modTime := 0 }, now := 7,
          statFails := false, readFails := false, removeFails := false,
          mkdirFails := false, writeFails := false }
        (.success 200 [] [9])).servedFromCache = false :=
  ⟨(C9_negative_ttl_bypasses "/c" (-5) (by decide)
      { method := "GET",
        url := { scheme := "http", host := "example.com", path := "/a", query := [] } }
      { entry := some { content := [1], modTime := 0 }, now := 7,
        statFails := false, readFails := false, removeFails := false,
        mkdirFails := false, writeFails := false }
      (.success 200 [] [9])).1,
   (C9_negative_ttl_bypasses "/c" (-5) (by decide)
      { method := "GET",
        url := { scheme := "http", host := "example.com", path := "/a", query := [] } }
      { entry := some { content := [1], modTime := 0 }, now := 7,
        statFails := false, readFails := false, removeFails := false,
        mkdirFails := false, writeFails := false }
      (.success 200 [] [9])).2.1.1⟩

/-- C10: whenever `GetInterval` returns without an error its result is
strictly positive (empty interval defaults to 1h; a parsed non-positive
interval is replaced by 1h), so a cleaner started with that result can only
hit `StartCleaner`'s no-op guard through an empty directory or
non-positive TTL, never through the interval. -/
theorem C10_interval_positive :
    (∀ c d, GetInterval c = .ok d → 0 < d ∧
      (∀ dir ttl, startCleanerNoOp d dir ttl = true → dir = "" ∨ ttl ≤ 0)) ∧
    GetInterval { interval := "" } = .ok 3600000000000 ∧
    (∀ c d0, StrToDuration c.interval = .ok d0 → d0 ≤ 0 → c.interval ≠ "" →
      GetInterval c = .ok 3600000000000) := by
  refine ⟨?_, by decide, ?_⟩
  · intro c d h
    have hpos : 0 < d := by
      simp only [GetInterval] at h
      split at h
      · exact absurd h (by simp)
      · split at h
        · cases h; omega
        · cases h; omega
    refine ⟨hpos, fun dir ttl hno => ?_⟩
    simp only [startCleanerNoOp, decide_eq_true_eq] at hno
    rcases hno with hno | hno
    · omega
    · exact hno
  · intro c d0 h hle hne
    simp only [GetInterval, if_neg hne, h, if_pos hle]

/-- C10 witness: the theorem applied at an interval that parses to a
positive duration. -/
theorem C10_interval_positive_witness :
    (0 < (90000000000 : Int) ∧
      (∀ dir ttl, startCleanerNoOp 90000000000 dir ttl = true → dir = "" ∨ ttl ≤ 0)) ∧
    GetInterval { interval := "-5m" } = .ok 3600000000000 :=
  ⟨C10_interval_positive.1 { interval := "90s" } 90000000000 (by decide),
   C10_interval_positive.2.2 { interval := "-5m" } (-300000000000) (by decide)
     (by decide) (by decide)⟩

end AdminBot
